import Mathlib

/-!
# PvDemo: sampling / buffering / upload scheduler of `pvdemo.c`

A shallow embedding of `hcjs-example-c/pvdemo/src/pvdemo.c`.

* C strings are `List Char`; the end of the list stands for the terminating NUL of the
  buffer, and a `'\0'` inside the list ends the string as it does in C.
* A `MoatObject` is an insertion-ordered list of key/value entries with unique keys.
* A floating-point value is its sign and exact rational magnitude, an infinity or a NaN;
  conversions round to nearest, ties to even, as IEEE 754 binary64 and binary32 do.
* Calls into the platform that can fail or that read the outside world (files, clock,
  allocation, UUID generation, the notification transport) take their outcome from an
  explicit environment argument.
* The callbacks return the new application state together with the list of the
  collection / transport operations they performed, in program order.
-/

namespace PvDemo

/-! ## Constants of the source -/

/-- Source constant `#define PV_DATA_MAX_COUNT (100)` -/
def PV_DATA_MAX_COUNT : Nat := 100

/-- Source constant `#define COLUMN_DELIMITER_CHR ' '` -/
def COLUMN_DELIMITER_CHR : Char := ' '

/-- Source constant `#define ERROR_CHR 'L'` -/
def ERROR_CHR : Char := 'L'

/-- Source constant `#define PV_DATA_MAX_LENGTH (256)`, the size of the record buffer `data`. -/
def PV_DATA_MAX_LENGTH : Nat := 256

/-- Modelled from the spec: `servicesync/moat.h` is not among the sources; the success code
`SSE_E_OK` is 0. -/
def SSE_E_OK : Int := 0

/-! ## C library functions used by the source -/

/-- The character a `char *` points at: the head of the remaining buffer, NUL at its end. -/
def deref (p : List Char) : Char := p.headD '\x00'

/-- The function `strlen`: number of characters before the first NUL. -/
def strlen : List Char → Nat
  | [] => 0
  | c :: cs => if c = '\x00' then 0 else strlen cs + 1

/-- The function `strchr(s, c)`: offset of the first occurrence of `c` in the C string
`s`, `none` for a NULL result. -/
def strchr : List Char → Char → Option Nat
  | [], c => if c = '\x00' then some 0 else none
  | x :: xs, c =>
    if x = c then some 0
    else if x = '\x00' then none
    else (strchr xs c).map (· + 1)

/-- The function `strncpy(dst, src, n)` into a buffer that is read as a C string
afterwards: the first `n` characters of `src`, cut at its first NUL (the rest of the `n`
bytes is NUL padding). The only call passes `n = in_len + 1` with
`in_len = strlen(src)`, so the copy is terminated. -/
def strncpy (src : List Char) (n : Nat) : List Char :=
  (src.take n).takeWhile (· ≠ '\x00')

/-- The function `isspace` in the C locale. -/
def isspace (c : Char) : Bool :=
  c = ' ' || c = '\t' || c = '\n' || c = '\x0b' || c = '\x0c' || c = '\r'

/-- The function `isdigit`: the codes 48 (`0`) to 57 (`9`). -/
def isdigit (c : Char) : Bool := 48 ≤ c.toNat && c.toNat ≤ 57

/-- Value of a decimal digit character. -/
def digitVal (c : Char) : Nat := c.toNat - '0'.toNat

/-- Accumulation of a run of decimal digits, most significant first, as the conversion
loops of `atoi` / `strtod` do. -/
def accDigits (acc : Nat) : List Char → Nat
  | [] => acc
  | c :: cs => accDigits (acc * 10 + digitVal c) cs

/-- The optional sign of a number: `true` for `-`, and the text after the sign. -/
def takeSign (s : List Char) : Bool × List Char :=
  if deref s = '-' then (true, s.drop 1)
  else if deref s = '+' then (false, s.drop 1)
  else (false, s)

/-- The function `atoi`: skips leading white space, reads an optional sign and the longest
run of decimal digits; text without digits converts to 0. The result is the mathematical
integer (a value outside `int` is undefined behaviour in C and is not modelled). -/
def atoi (s : List Char) : Int :=
  let s1 := s.dropWhile isspace
  let t := takeSign s1
  let n : Int := (accDigits 0 (t.2.takeWhile isdigit) : Nat)
  if t.1 then -n else n

/-- An IEEE 754 binary floating-point datum: a finite value with its sign (the magnitude
`q` is not negative, and `finite true 0` is the negative zero), an infinity or a NaN
(whose payload is not modelled). -/
inductive ieee_value where
  | finite (neg : Bool) (q : ℚ)
  | inf (neg : Bool)
  | nan (neg : Bool)
  deriving DecidableEq, Repr

/-- The C type `double`, IEEE 754 binary64, in which `strtod` returns. -/
abbrev c_double := ieee_value

/-- Modelled from the spec: `sse_float` is declared in the `servicesync` headers, which are
not among the sources; the `float` of spec §3 is IEEE 754 binary32. -/
abbrev sse_float := ieee_value

/-- The number of binary digits of `n`, with the recursion bounded by `fuel`. -/
def bitlenAux : Nat → Nat → Nat
  | 0, _ => 0
  | fuel + 1, n => if n = 0 then 0 else bitlenAux fuel (n / 2) + 1

/-- The number of binary digits of `n` (0 for 0). -/
def bitlen (n : Nat) : Nat := bitlenAux n n

/-- The integer `e` with `2 ^ e ≤ num / den < 2 ^ (e + 1)`, for positive `num` and `den`:
the difference of the bit lengths, or one less. -/
def floor_log2 (num den : Nat) : Int :=
  let c : Int := (bitlen num : Int) - (bitlen den : Int)
  let ge : Bool := if 0 ≤ c then den * 2 ^ c.toNat ≤ num else den ≤ num * 2 ^ (-c).toNat
  if ge then c else c - 1

/-- The product `m * b ^ k` for an integer exponent `k`. -/
def scale (b : Nat) (m : ℚ) (k : Int) : ℚ :=
  if 0 ≤ k then m * ((b ^ k.toNat : Nat) : ℚ) else m / ((b ^ (-k).toNat : Nat) : ℚ)

/-- The multiple of `2 ^ s` nearest to the magnitude `q`, the even multiple when `q` lies
half way between two. -/
def round_to_multiple (s : Int) (q : ℚ) : ℚ :=
  let num := q.num.natAbs
  let den := q.den
  let a := if 0 ≤ s then num else num * 2 ^ (-s).toNat
  let b := if 0 ≤ s then den * 2 ^ s.toNat else den
  let n := a / b
  let r := a % b
  let n1 := if b < 2 * r ∨ (2 * r = b ∧ n % 2 = 1) then n + 1 else n
  scale 2 (n1 : ℚ) s

/-- The exponent of the unit in the last place of the magnitude `q` in the binary format
with `p` significant bits and least exponent `emin`: that of the subnormal numbers below
`2 ^ emin`. -/
def ulp_exponent (p : Nat) (emin : Int) (q : ℚ) : Int :=
  max (floor_log2 q.num.natAbs q.den) emin - ((p : Int) - 1)

/-- Rounding of the magnitude `q` to the binary format with `p` significant bits and
exponents `emin` to `emax`, to nearest with ties to the even significand (the default
rounding mode); a result of `2 ^ (emax + 1)` or more overflows to infinity. -/
def round_nearest_even (p : Nat) (emin emax : Int) (neg : Bool) (q : ℚ) : ieee_value :=
  if q.num.natAbs = 0 then ieee_value.finite neg 0
  else
    let v := round_to_multiple (ulp_exponent p emin q) q
    if ((2 ^ (emax + 1).toNat : Nat) : ℚ) ≤ v then ieee_value.inf neg
    else ieee_value.finite neg v

/-- The `double` nearest to the number of sign `neg` and magnitude `q`. -/
def to_double (neg : Bool) (q : ℚ) : c_double := round_nearest_even 53 (-1022) 1023 neg q

/-- The conversion of a `double` to `float` done by the assignment `v = strtod(...)` to
the `sse_float` variable `v`. -/
def double_to_float : c_double → sse_float
  | ieee_value.finite neg q => round_nearest_even 24 (-126) 127 neg q
  | x => x

/-- The function `tolower` on ASCII: the codes 65 (`A`) to 90 (`Z`) move up by 32. -/
def lower (c : Char) : Char :=
  if 65 ≤ c.toNat ∧ c.toNat ≤ 90 then Char.ofNat (c.toNat + 32) else c

/-- The function `isxdigit`. -/
def isxdigit (c : Char) : Bool :=
  isdigit c || (97 ≤ (lower c).toNat && (lower c).toNat ≤ 102)

/-- Value of a hexadecimal digit character. -/
def hexVal (c : Char) : Nat := if isdigit c then c.toNat - 48 else (lower c).toNat - 87

/-- Accumulation of a run of hexadecimal digits, most significant first. -/
def accHex (acc : Nat) : List Char → Nat
  | [] => acc
  | c :: cs => accHex (acc * 16 + hexVal c) cs

/-- Does the text start with the lower-case word `w`, letter case ignored? -/
def starts_with_ci (s w : List Char) : Bool := (s.take w.length).map lower = w

/-- Does the text start a hexadecimal number: `0x` or `0X` and then a hexadecimal digit,
or a point and a hexadecimal digit? -/
def starts_hex (s : List Char) : Bool :=
  deref s = '0' && lower (deref (s.drop 1)) = 'x' &&
    (isxdigit (deref (s.drop 2)) ||
      (deref (s.drop 2) = '.' && isxdigit (deref (s.drop 3))))

/-- The exponent part of a floating constant: the marker letter (`e` for a decimal, `p`
for a hexadecimal number, in either case), an optional sign and at least one decimal
digit; 0 when there is no such part. -/
def exponentPart (marker : Char) (s : List Char) : Int :=
  if lower (deref s) = marker then
    let t := takeSign (s.drop 1)
    let ds := t.2.takeWhile isdigit
    if ds = [] then 0
    else if t.1 then -((accDigits 0 ds : Nat) : Int) else ((accDigits 0 ds : Nat) : Int)
  else 0

/-- The function `strtod(s, NULL)`: skips leading white space and reads an optional sign;
then `inf` or `infinity`, `nan`, a hexadecimal number with an optional binary exponent,
or decimal digits with an optional radix point and an optional decimal exponent. The
number read is rounded to the nearest `double`. Text that does not start a number
converts to positive zero. -/
def strtod (s : List Char) : c_double :=
  let s1 := s.dropWhile isspace
  let t := takeSign s1
  let neg := t.1
  let s2 := t.2
  if starts_with_ci s2 ['i', 'n', 'f'] then ieee_value.inf neg
  else if starts_with_ci s2 ['n', 'a', 'n'] then ieee_value.nan neg
  else if starts_hex s2 then
    let h := s2.drop 2
    let ip := h.takeWhile isxdigit
    let r := h.dropWhile isxdigit
    let fp := if deref r = '.' then (r.drop 1).takeWhile isxdigit else []
    let r2 := if deref r = '.' then (r.drop 1).dropWhile isxdigit else r
    let m : ℚ := (accHex 0 (ip ++ fp) : Nat) / ((16 ^ fp.length : Nat) : ℚ)
    to_double neg (scale 2 m (exponentPart 'p' r2))
  else
    let ip := s2.takeWhile isdigit
    let r := s2.dropWhile isdigit
    let fp := if deref r = '.' then (r.drop 1).takeWhile isdigit else []
    let r2 := if deref r = '.' then (r.drop 1).dropWhile isdigit else r
    if ip = [] ∧ fp = [] then ieee_value.finite false 0
    else
      let m : ℚ := (accDigits 0 (ip ++ fp) : Nat) / ((10 ^ fp.length : Nat) : ℚ)
      to_double neg (scale 10 m (exponentPart 'e' r2))

/-! ## MOAT objects -/

/-- A value held by a `MoatObject` of scalar fields. -/
inductive MoatValue where
  | int64 (v : Int)
  | float (v : sse_float)
  | string (s : String)
  deriving DecidableEq, Repr

/-- Modelled from the spec: the MOAT object library (`servicesync/moat.h`) is not among the
sources. A `MoatObject` is an insertion-ordered mapping from unique keys to values (spec
§3, §4.3): the list of its entries, oldest first. -/
abbrev MoatObject (V : Type) := List (String × V)

/-- Modelled from the spec: `moat_object_new`, an empty object. -/
def moat_object_new {V : Type} : MoatObject V := []

/-- Modelled from the spec: `moat_object_get_length`, the number of entries. -/
def moat_object_get_length {V : Type} (o : MoatObject V) : Nat := o.length

/-- Modelled from the spec: `moat_object_add_*_value(obj, key, value, dup, overwrite)`.
A new key is appended as the most recent entry (spec §4.3). For a key that is already
present the spec is silent; here it keeps its place and takes the new value when
`overwrite` is set, and is an error (`none`) otherwise. Failure for lack of memory is an
outcome given at the call. -/
def moat_object_add_value {V : Type} (o : MoatObject V) (key : String) (v : V)
    (overwrite : Bool) : Option (MoatObject V) :=
  if o.any (fun e => e.1 == key) then
    if overwrite then some (o.map (fun e => if e.1 == key then (key, v) else e)) else none
  else some (o ++ [(key, v)])

/-- Modelled from the spec: `moat_object_remove_value(obj, key)`, the object without the
entry stored under `key`. -/
def moat_object_remove_value {V : Type} (o : MoatObject V) (key : String) : MoatObject V :=
  o.filter (fun e => e.1 != key)

/-- Modelled from the spec: `moat_object_remove_all`, the object without any entry. -/
def moat_object_remove_all {V : Type} (_o : MoatObject V) : MoatObject V := []

/-- Modelled from the spec: `moat_object_create_iterator`, the keys still to be visited,
in insertion order. -/
def moat_object_create_iterator {V : Type} (o : MoatObject V) : List String :=
  o.map (fun e => e.1)

/-- Modelled from the spec: `moat_object_iterator_get_next_key`, the next key of the
iteration, `none` (NULL) when it is exhausted. -/
def moat_object_iterator_get_next_key (ite : List String) : Option String := ite.head?

/-- A sensing data object: the fields `timestamp`, `da`, `value`, `unit`. -/
abbrev SensingData := MoatObject MoatValue

/-- The data collection: sensing data objects under their UUID keys. -/
abbrev Collection := MoatObject SensingData

/-! ## The record parser `create_sensing_data` -/

/-- Outcomes of the fallible calls inside `create_sensing_data`. -/
structure ParseEnv where
  /-- The result of `gettimeofday`: `none` on error, else `(tv_sec, tv_usec)`. -/
  gettimeofday : Option (Nat × Nat)
  /-- Whether `moat_object_new` returned an object. -/
  new_ok : Bool
  /-- Whether `moat_object_add_int64_value` for `timestamp` succeeded. -/
  add_timestamp_ok : Bool
  /-- Whether `moat_object_add_string_value` for `da` succeeded. -/
  add_da_ok : Bool
  /-- Whether `moat_object_add_float_value` for `value` succeeded. -/
  add_value_ok : Bool
  /-- Whether `moat_object_add_string_value` for `unit` succeeded. -/
  add_unit_ok : Bool
  deriving DecidableEq, Repr

/-- Conversion of a `sse_uint64` to the `sse_int64` parameter of
`moat_object_add_int64_value`. -/
def to_int64 (n : Nat) : Int :=
  if n % 2 ^ 64 < 2 ^ 63 then (n % 2 ^ 64 : Nat) else ((n % 2 ^ 64 : Nat) : Int) - 2 ^ 64

/-- The object building tail of `create_sensing_data` (lines 278-306): clock, allocation
and the four field additions, each of which leaves through `error_exit` on failure. -/
def build_sensing_data (env : ParseEnv) (da : List Char) (v : sse_float) (unit : List Char)
    (unit_len : Nat) : Option SensingData :=
  match env.gettimeofday with
  | none => none
  | some (tv_sec, tv_usec) =>
    let timestamp := (tv_sec * 1000 % 2 ^ 64 + tv_usec % 2 ^ 64 / 1000) % 2 ^ 64
    if !env.new_ok then none
    else
      let sensing_data : SensingData := moat_object_new
      if !env.add_timestamp_ok then none
      else match moat_object_add_value sensing_data "timestamp"
          (MoatValue.int64 (to_int64 timestamp)) true with
      | none => none
      | some sd1 =>
        if !env.add_da_ok then none
        else match moat_object_add_value sd1 "da"
            (MoatValue.string (String.mk (da.take (strlen da)))) true with
        | none => none
        | some sd2 =>
          if !env.add_value_ok then none
          else match moat_object_add_value sd2 "value" (MoatValue.float v) true with
          | none => none
          | some sd3 =>
            if !env.add_unit_ok then none
            else moat_object_add_value sd3 "unit"
              (MoatValue.string (String.mk (unit.take unit_len))) true

/-- The function `create_sensing_data(in_record, in_len)`: `none` for a NULL result. The in-place
tokenisation (`*p = '\0'; p++`) splits the buffer into the text before the delimiter
and the text after it. -/
def create_sensing_data (env : ParseEnv) (in_record : List Char) (in_len : Nat) :
    Option SensingData :=
  if in_len ≥ PV_DATA_MAX_LENGTH then none
  else
    let data := strncpy in_record (in_len + 1)
    match strchr data COLUMN_DELIMITER_CHR with
    | none => none
    | some da_len =>
      let da := data.take da_len
      let p := data.drop (da_len + 1)
      if deref p = '\x00' ∨ da_len = 0 ∨ da_len ≥ in_len then none
      else
        match strchr p COLUMN_DELIMITER_CHR with
        | none => none
        | some value_len =>
          let value := p.take value_len
          let p2 := p.drop (value_len + 1)
          if deref p2 = '\x00' ∨ value_len = 0 ∨ da_len + 1 + value_len ≥ in_len then none
          else
            match strchr value ERROR_CHR with
            | some _ => none
            | none =>
              let unit := p2
              let unit_len := strlen unit
              if unit_len = 0 then none
              else
                let v : sse_float := double_to_float (strtod value)
                build_sensing_data env da v unit unit_len

/-! ## The record source `read_record` -/

/-- Outcome of the file accesses of `read_record` on one path. -/
inductive FileAccess where
  /-- The call of `open` returned -1. -/
  | open_error
  /-- The call of `fstat` failed. -/
  | fstat_error
  /-- The call of `malloc` returned NULL. -/
  | malloc_error
  /-- The `st_size` bytes of the buffer after the read loop (what `read` delivered, NUL
  where it delivered nothing). -/
  | content (buf : List Char)
  deriving DecidableEq, Repr

/-- The function `read_record(in_path)`: `none` for NULL; otherwise the buffer with every
line feed and carriage return overwritten by NUL. -/
def read_record : FileAccess → Option (List Char)
  | FileAccess.content buf =>
    some (buf.map (fun c => if c = '\n' ∨ c = '\r' then '\x00' else c))
  | _ => none

/-! ## Application state -/

/-- The callbacks registered with the periodic watchers. -/
inductive Callback where
  | pvdemoapp_sensing_interval_proc
  | pvdemoapp_upload_interval_proc
  deriving DecidableEq, Repr

/-- The fields of a libev `ev_periodic` watcher that the source sets or tests. When the
loop fires an active watcher is libev's business and is not modelled. -/
structure ev_periodic where
  /-- What `ev_is_active` reports. -/
  active : Bool
  /-- The callback given to `ev_periodic_init`. -/
  cb : Option Callback
  /-- The `offset` argument of `ev_periodic_init`. -/
  offset : Nat
  /-- The `interval` argument of `ev_periodic_init`, in seconds. -/
  interval : Nat
  deriving DecidableEq, Repr

/-- The function `ev_periodic_init(w, cb, offset, interval, 0)`. -/
def ev_periodic_init (cb : Callback) (offset interval : Nat) : ev_periodic :=
  { active := false, cb := some cb, offset := offset, interval := interval }

/-- The function `ev_periodic_start(loop, w)`. -/
def ev_periodic_start (w : ev_periodic) : ev_periodic := { w with active := true }

/-- The function `ev_periodic_stop(loop, w)`. -/
def ev_periodic_stop (w : ev_periodic) : ev_periodic := { w with active := false }

/-- The function `ev_is_active(w)`. -/
def ev_is_active (w : ev_periodic) : Bool := w.active

/-- The platform handle `Moat`: the names of the registered models. -/
structure Moat where
  models : List String
  deriving DecidableEq, Repr

/-- The context `struct PvDemoApp_`. A NULL pointer field is `none`. -/
structure PvDemoApp where
  Moat : Moat
  Urn : String
  ServiceId : Option String
  CollectionTimer : ev_periodic
  UploadTimer : ev_periodic
  DataCollection : Option Collection
  deriving DecidableEq, Repr

/-- Operations on the data collection and on the transport, as performed by a callback. -/
inductive Event where
  /-- A call of `moat_object_remove_value(coll, key)`. -/
  | remove_value (key : String)
  /-- A successful `moat_object_add_object_value(coll, key, obj, ...)`. -/
  | add_object_value (key : String) (obj : SensingData)
  /-- Entry into `pvdemoapp_upload_data`. -/
  | upload_data
  /-- A call of `moat_send_notification(moat, service_id, NULL, "SensingData", coll, NULL,
  NULL)`. -/
  | send_notification (service_id : Option String) (coll : Collection)
  /-- A call of `moat_object_remove_all(coll)`. -/
  | remove_all
  deriving DecidableEq, Repr

/-- The function `create_notification_id(in_urn, in_service_name)`; `none` when `malloc` fails. -/
def create_notification_id (malloc_ok : Bool) (in_urn in_service_name : String) :
    Option String :=
  if malloc_ok then some ("urn:moat:" ++ in_urn ++ ":" ++ in_service_name ++ ":1.0")
  else none

section Callbacks

-- The error code `SSE_E_INVAL` of `servicesync/moat.h`, which is not among the sources.
variable (SSE_E_INVAL : Int)

/-- The function `pvdemoapp_upload_data(self)`: the returned code, the new state and the operations
performed. `send_ret` is what `moat_send_notification` returns. -/
def pvdemoapp_upload_data (self : PvDemoApp) (send_ret : Int) :
    Int × PvDemoApp × List Event :=
  match self.DataCollection with
  | none => (SSE_E_INVAL, self, [Event.upload_data])
  | some coll =>
    let len := moat_object_get_length coll
    if len = 0 then (SSE_E_OK, self, [Event.upload_data])
    else
      let req_id := send_ret
      (req_id, { self with DataCollection := some (moat_object_remove_all coll) },
        [Event.upload_data, Event.send_notification self.ServiceId coll, Event.remove_all])

/-- The function `pvdemoapp_upload_interval_proc(loop, w, revents)` with `w->data`
pointing at `app`. -/
def pvdemoapp_upload_interval_proc (app : PvDemoApp) (send_ret : Int) :
    PvDemoApp × List Event :=
  let r := pvdemoapp_upload_data SSE_E_INVAL app send_ret
  (r.2.1, r.2.2)

/-- Outcomes of the calls of one `pvdemoapp_sensing_interval_proc` run. -/
structure SensingEnv where
  /-- Whether `moat_object_create_iterator` returned an iterator. -/
  iterator_ok : Bool
  /-- The accesses to `PV_DATA_FILE`. -/
  data_file : FileAccess
  /-- The calls inside `create_sensing_data`. -/
  parse : ParseEnv
  /-- The text `uuid_unparse` produced for the fresh random UUID. -/
  uuid_ascii : String
  /-- Whether `moat_object_add_object_value` found the memory it needs. -/
  add_ok : Bool
  /-- What `moat_send_notification` returns if it is called. -/
  send_ret : Int
  deriving DecidableEq, Repr

/-- Lines 389-401 of `pvdemoapp_sensing_interval_proc`: when the collection holds
`PV_DATA_MAX_COUNT` entries or more, the entry under the first key of an iteration is
removed. `none` is the jump to `error_exit` for a NULL iterator. -/
def evict_oldest (iterator_ok : Bool) (coll : Collection) :
    Option (Collection × List Event) :=
  let data_count := moat_object_get_length coll
  if data_count ≥ PV_DATA_MAX_COUNT then
    if !iterator_ok then none
    else
      let ite := moat_object_create_iterator coll
      match moat_object_iterator_get_next_key ite with
      | some first_key =>
        some (moat_object_remove_value coll first_key, [Event.remove_value first_key])
      | none => some (coll, [])
  else some (coll, [])

/-- The function `pvdemoapp_sensing_interval_proc(loop, w, revents)` with `w->data`
pointing at `app`. -/
def pvdemoapp_sensing_interval_proc (app : PvDemoApp) (env : SensingEnv) :
    PvDemoApp × List Event :=
  match app.DataCollection with
  | none => (app, [])
  | some coll =>
    match evict_oldest env.iterator_ok coll with
    | none => (app, [])
    | some (coll1, ev1) =>
      let app1 := { app with DataCollection := some coll1 }
      match read_record env.data_file with
      | none => (app1, ev1)
      | some record =>
        let len := strlen record
        match create_sensing_data env.parse record len with
        | none => (app1, ev1)
        | some sensing_data =>
          if !env.add_ok then (app1, ev1)
          else match moat_object_add_value coll1 env.uuid_ascii sensing_data true with
          | none => (app1, ev1)
          | some coll2 =>
            let app2 := { app with DataCollection := some coll2 }
            let ev2 := ev1 ++ [Event.add_object_value env.uuid_ascii sensing_data]
            if !ev_is_active app2.UploadTimer then
              let r := pvdemoapp_upload_data SSE_E_INVAL app2 env.send_ret
              (r.2.1, ev2 ++ r.2.2)
            else (app2, ev2)

end Callbacks

/-! ## Configuration and start / stop -/

/-- The store of an `sse_int` into an `sse_uint` (32 bits). -/
def to_uint (z : Int) : Nat := (z % 2 ^ 32).toNat

/-- The function `pvdemoapp_get_monitoring_config(out_s_interval, out_u_interval)`: the two values
written through the out parameters. -/
def pvdemoapp_get_monitoring_config (config_file : FileAccess) : Nat × Nat :=
  let s : Int := 10
  let u : Int := 30
  match read_record config_file with
  | none => (to_uint s, to_uint u)
  | some record =>
    match strchr record COLUMN_DELIMITER_CHR with
    | none => (to_uint s, to_uint u)
    | some i =>
      let first := record.take i
      let p := record.drop (i + 1)
      if deref p ≠ '\x00' then (to_uint (atoi first), to_uint (atoi p))
      else (to_uint s, to_uint u)

/-- Lines 515-518 of `pvdemoapp_start`: the intervals read from the configuration, the
sampling interval lowered to the upload interval when it is larger. -/
def clamped_config (config_file : FileAccess) : Nat × Nat :=
  let cfg := pvdemoapp_get_monitoring_config config_file
  let u_interval := cfg.2
  let s_interval := if cfg.1 > u_interval then u_interval else cfg.1
  (s_interval, u_interval)

/-- The function `pvdemoapp_new(in_moat, in_urn)`: the zero-filled context, `none` when `malloc`
fails. -/
def pvdemoapp_new (malloc_ok : Bool) (in_moat : Moat) (in_urn : String) : Option PvDemoApp :=
  if malloc_ok then
    some { Moat := in_moat, Urn := in_urn, ServiceId := none,
           CollectionTimer := { active := false, cb := none, offset := 0, interval := 0 },
           UploadTimer := { active := false, cb := none, offset := 0, interval := 0 },
           DataCollection := none }
  else none

/-- Outcomes of the calls of `pvdemoapp_start`. -/
structure StartEnv where
  /-- Whether `create_notification_id` found memory. -/
  noti_id_ok : Bool
  /-- Whether `moat_object_new` returned the collection. -/
  coll_ok : Bool
  /-- What `moat_register_model` returns. -/
  register_err : Int
  /-- The accesses to `PV_DEMO_CONFIG_FILE`. -/
  config_file : FileAccess
  /-- The value of the local `err` before its first assignment. -/
  uninit_err : Int
  deriving DecidableEq, Repr

/-- The function `pvdemoapp_start(self)`: the returned code and the new state. -/
def pvdemoapp_start (self : PvDemoApp) (env : StartEnv) : Int × PvDemoApp :=
  match create_notification_id env.noti_id_ok self.Urn "upload-sensing-data" with
  | none => (env.uninit_err, self)
  | some noti_id =>
    if !env.coll_ok then (env.uninit_err, self)
    else
      let coll : Collection := moat_object_new
      let err := env.register_err
      if err ≠ SSE_E_OK then (err, self)
      else
        let self0 := { self with Moat := { models := self.Moat.models ++ ["SensingData"] } }
        let cfg := clamped_config env.config_file
        let s_interval := cfg.1
        let u_interval := cfg.2
        let self1 := { self0 with ServiceId := some noti_id, DataCollection := some coll }
        let self2 := { self1 with
          CollectionTimer := ev_periodic_start
            (ev_periodic_init Callback.pvdemoapp_sensing_interval_proc 0 s_interval) }
        let self3 :=
          if s_interval ≠ u_interval then
            { self2 with
              UploadTimer := ev_periodic_start
                (ev_periodic_init Callback.pvdemoapp_upload_interval_proc 0 u_interval) }
          else self2
        (SSE_E_OK, self3)

/-- The function `pvdemoapp_stop(self)`. -/
def pvdemoapp_stop (self : PvDemoApp) : PvDemoApp :=
  let self1 :=
    if ev_is_active self.CollectionTimer then
      { self with CollectionTimer := ev_periodic_stop self.CollectionTimer }
    else self
  let self2 :=
    if ev_is_active self1.UploadTimer then
      { self1 with UploadTimer := ev_periodic_stop self1.UploadTimer }
    else self1
  let self3 :=
    { self2 with Moat := { models := self2.Moat.models.filter (· != "SensingData") } }
  { self3 with DataCollection := none }

/-! ## The event loop -/

/-- One firing of a periodic watcher, with the outcomes its callback meets. -/
inductive Tick where
  /-- The watcher `CollectionTimer` fires. -/
  | sensing (env : SensingEnv)
  /-- The watcher `UploadTimer` fires; `send_ret` is what `moat_send_notification` returns. -/
  | upload (send_ret : Int)
  deriving DecidableEq, Repr

/-- Modelled from the spec: the libev loop behind `moat_run` is not among the sources; it
invokes the callback of a watcher only while the watcher is active (spec §4.5, §5), one
callback at a time. -/
def fire (SSE_E_INVAL : Int) (app : PvDemoApp) : Tick → PvDemoApp × List Event
  | Tick.sensing env =>
    if ev_is_active app.CollectionTimer then
      pvdemoapp_sensing_interval_proc SSE_E_INVAL app env
    else (app, [])
  | Tick.upload send_ret =>
    if ev_is_active app.UploadTimer then
      pvdemoapp_upload_interval_proc SSE_E_INVAL app send_ret
    else (app, [])

/-- The state after a sequence of firings. -/
def run (SSE_E_INVAL : Int) (app : PvDemoApp) : List Tick → PvDemoApp
  | [] => app
  | t :: ts => run SSE_E_INVAL (fire SSE_E_INVAL app t).1 ts

/-! ## Vocabulary of the specification -/

/-- The text of a C string held in a buffer: the characters before the first NUL. -/
def cstr (buf : List Char) : List Char := buf.takeWhile (· ≠ '\x00')

/-- The text of a line before its first space (the channel designator). -/
def designator (line : List Char) : List Char := line.takeWhile (· ≠ ' ')

/-- What follows the first space of a line (empty when there is no space). -/
def after_space (line : List Char) : List Char := (line.dropWhile (· ≠ ' ')).drop 1

/-- The value token: the text between the first and the second space. -/
def value_token (line : List Char) : List Char := designator (after_space line)

/-- The unit: what follows the second space. -/
def unit_text (line : List Char) : List Char := after_space (after_space line)

/-- The clock read and every allocation inside `create_sensing_data` succeed. -/
def ParseEnv.Ok (env : ParseEnv) : Prop :=
  env.gettimeofday.isSome = true ∧ env.new_ok = true ∧ env.add_timestamp_ok = true ∧
    env.add_da_ok = true ∧ env.add_value_ok = true ∧ env.add_unit_ok = true

instance (env : ParseEnv) : Decidable env.Ok := by
  unfold ParseEnv.Ok; infer_instance

/-- The time stamp in milliseconds computed from a clock reading. -/
def timestamp_of (tv : Nat × Nat) : Int :=
  to_int64 ((tv.1 * 1000 % 2 ^ 64 + tv.2 % 2 ^ 64 / 1000) % 2 ^ 64)

/-- The sensing data object with the given field values. -/
def reading (ts : Int) (da : List Char) (v : sse_float) (unit : List Char) : SensingData :=
  [("timestamp", MoatValue.int64 ts), ("da", MoatValue.string (String.mk da)),
   ("value", MoatValue.float v), ("unit", MoatValue.string (String.mk unit))]

/-- The sensing data a sampling tick obtains from its record, if the record can be read
and parsed. -/
def sensed (env : SensingEnv) : Option SensingData :=
  match read_record env.data_file with
  | none => none
  | some record => create_sensing_data env.parse record (strlen record)

/-- The collection entry a sampling tick inserts when it reads and parses its record. -/
def entry_of (env : SensingEnv) : Option (String × SensingData) :=
  (sensed env).map (fun sd => (env.uuid_ascii, sd))

/-- The last `n` elements of a list, in their order. -/
def lastN {α : Type} (n : Nat) (l : List α) : List α := l.drop (l.length - n)

/-- The batches handed to the transport, in call order. -/
def sent_batches : List Event → List (Option String × Collection)
  | [] => []
  | Event.send_notification sid coll :: es => (sid, coll) :: sent_batches es
  | _ :: es => sent_batches es

/-- The entries inserted into the collection, in call order. -/
def inserted : List Event → List (String × SensingData)
  | [] => []
  | Event.add_object_value key obj :: es => (key, obj) :: inserted es
  | _ :: es => inserted es

/-- The number of flush attempts, that is of calls of `pvdemoapp_upload_data`. -/
def flush_attempts (es : List Event) : Nat := es.count Event.upload_data

/-- The entries of the data collection of a state (none for a NULL collection). -/
def entries (app : PvDemoApp) : Collection := app.DataCollection.getD []

/-- The calls of `pvdemoapp_start` before the configuration is loaded succeed. -/
def StartEnv.Ok (env : StartEnv) : Prop :=
  env.noti_id_ok = true ∧ env.coll_ok = true ∧ env.register_err = SSE_E_OK

instance (env : StartEnv) : Decidable env.Ok := by
  unfold StartEnv.Ok; infer_instance

/-- The number a run of decimal digits denotes. -/
def decimal (ds : List Char) : Nat := Nat.ofDigits 10 ((ds.map digitVal).reverse)

/-- An environment in which the clock reads `tv` and every allocation succeeds. -/
def ParseEnv.succeeding (tv : Nat × Nat) : ParseEnv :=
  { gettimeofday := some tv, new_ok := true, add_timestamp_ok := true, add_da_ok := true,
    add_value_ok := true, add_unit_ok := true }

/-- A context as `pvdemoapp_new` creates it. -/
def fresh_app : PvDemoApp :=
  { Moat := { models := [] }, Urn := "9999d129-5ba5-4912-963e-0edecee52664:pvdemo",
    ServiceId := none,
    CollectionTimer := { active := false, cb := none, offset := 0, interval := 0 },
    UploadTimer := { active := false, cb := none, offset := 0, interval := 0 },
    DataCollection := none }

/-- A start in which every call succeeds and the configuration file holds `cfg`. -/
def start_env (cfg : String) : StartEnv :=
  { noti_id_ok := true, coll_ok := true, register_err := 0,
    config_file := FileAccess.content cfg.toList, uninit_err := 0 }

/-- A started context with both watchers active and an empty collection. -/
def scheduled_app : PvDemoApp :=
  { Moat := { models := ["SensingData"] },
    Urn := "9999d129-5ba5-4912-963e-0edecee52664:pvdemo",
    ServiceId :=
      some "urn:moat:9999d129-5ba5-4912-963e-0edecee52664:pvdemo:upload-sensing-data:1.0",
    CollectionTimer :=
      { active := true, cb := some Callback.pvdemoapp_sensing_interval_proc, offset := 0,
        interval := 10 },
    UploadTimer :=
      { active := true, cb := some Callback.pvdemoapp_upload_interval_proc, offset := 0,
        interval := 30 },
    DataCollection := some [] }

/-- The text of a UUID whose last three digits are those of `i`. -/
def uuid_of (i : Nat) : String :=
  String.mk ("6f1e2c3a-9b4d-4e5f-8a7b-0c1d2e3f4".toList ++
    [Nat.digitChar (i / 100 % 10), Nat.digitChar (i / 10 % 10), Nat.digitChar (i % 10)])

/-- A sampling tick that reads the record `ch1 12.5 V` at second `i` and stores it under
the key `uuid_of i`. -/
def sample_env (i : Nat) : SensingEnv :=
  { iterator_ok := true, data_file := FileAccess.content "ch1 12.5 V\n".toList,
    parse := ParseEnv.succeeding (1700000000 + i, 0), uuid_ascii := uuid_of i,
    add_ok := true, send_ret := 1 }

/-- A sampling tick whose data file cannot be opened. -/
def unreadable_env : SensingEnv :=
  { iterator_ok := true, data_file := FileAccess.open_error,
    parse := ParseEnv.succeeding (1700000000, 0), uuid_ascii := uuid_of 999,
    add_ok := true, send_ret := 1 }

/-- The sensing data object of the record `ch1 12.5 V` read at second `i`. -/
def sample_reading (i : Nat) : SensingData :=
  reading (timestamp_of (1700000000 + i, 0)) "ch1".toList (ieee_value.finite false (25 / 2))
    "V".toList

/-- A collection holding 100 entries, the oldest first. -/
def full_collection : Collection :=
  (List.range 100).map (fun i => (uuid_of i, sample_reading i))

/-- A started context whose collection is full. -/
def full_app : PvDemoApp := { scheduled_app with DataCollection := some full_collection }

/-! ## C strings: basic facts -/

theorem strlen_eq_cstr_length (s : List Char) : strlen s = (cstr s).length := by
  induction s with
  | nil => rfl
  | cons c cs ih =>
    by_cases h : c = '\x00'
    · simp [strlen, cstr, h]
    · simp only [strlen, cstr, if_neg h] at ih ⊢
      rw [List.takeWhile_cons_of_pos (by simpa using h)]
      simp [ih]

theorem cstr_nul_free (s : List Char) : '\x00' ∉ cstr s := by
  intro h
  have := List.mem_takeWhile_imp h
  simp at this

theorem cstr_of_nul_free {s : List Char} (h : '\x00' ∉ s) : cstr s = s := by
  unfold cstr
  rw [List.takeWhile_eq_self_iff]
  intro c hc
  have : c ≠ '\x00' := fun e => h (e ▸ hc)
  simpa using this

theorem strlen_of_nul_free {s : List Char} (h : '\x00' ∉ s) : strlen s = s.length := by
  rw [strlen_eq_cstr_length, cstr_of_nul_free h]

theorem take_strlen (s : List Char) : s.take (strlen s) = cstr s := by
  induction s with
  | nil => rfl
  | cons c cs ih =>
    by_cases h : c = '\x00'
    · simp [strlen, cstr, h]
    · simp only [strlen, cstr, if_neg h] at ih ⊢
      rw [List.takeWhile_cons_of_pos (by simpa using h)]
      simp [ih]

theorem strncpy_strlen (s : List Char) : strncpy s (strlen s + 1) = cstr s := by
  unfold strncpy
  induction s with
  | nil => rfl
  | cons c cs ih =>
    by_cases h : c = '\x00'
    · simp [strlen, cstr, h]
    · simp only [strlen, cstr, if_neg h] at ih ⊢
      rw [List.take_succ_cons, List.takeWhile_cons_of_pos (by simpa using h),
        List.takeWhile_cons_of_pos (by simpa using h), ih]

theorem strchr_none_iff {s : List Char} {c : Char} (hs : '\x00' ∉ s) (hc : c ≠ '\x00') :
    strchr s c = none ↔ c ∉ s := by
  induction s with
  | nil => simp [strchr, hc]
  | cons x xs ih =>
    have hx : x ≠ '\x00' := fun e => hs (by simp [e])
    have hxs : '\x00' ∉ xs := fun e => hs (by simp [e])
    by_cases hxc : x = c
    · simp [strchr, hxc]
    · have hcx : ¬ c = x := fun e => hxc e.symm
      simp [strchr, hxc, hx, ih hxs, hcx]

theorem strchr_of_mem {s : List Char} {c : Char} (hs : '\x00' ∉ s) (hm : c ∈ s) :
    strchr s c = some (s.takeWhile (· ≠ c)).length := by
  induction s with
  | nil => simp at hm
  | cons x xs ih =>
    have hx : x ≠ '\x00' := fun e => hs (by simp [e])
    have hxs : '\x00' ∉ xs := fun e => hs (by simp [e])
    by_cases hxc : x = c
    · simp [strchr, hxc]
    · have hm2 : c ∈ xs := by
        rcases List.mem_cons.1 hm with h | h
        · exact absurd h.symm hxc
        · exact h
      rw [List.takeWhile_cons_of_pos (by simpa using hxc)]
      simp [strchr, hxc, hx, ih hxs hm2]

theorem take_length_takeWhile (p : Char → Bool) (s : List Char) :
    s.take (s.takeWhile p).length = s.takeWhile p := by
  induction s with
  | nil => rfl
  | cons x xs ih =>
    by_cases h : p x
    · simp [List.takeWhile_cons_of_pos h, ih]
    · simp [List.takeWhile_cons_of_neg h]

theorem drop_length_takeWhile (p : Char → Bool) (s : List Char) :
    s.drop (s.takeWhile p).length = s.dropWhile p := by
  induction s with
  | nil => rfl
  | cons x xs ih =>
    by_cases h : p x
    · simp [List.takeWhile_cons_of_pos h, List.dropWhile_cons_of_pos h, ih]
    · simp [List.takeWhile_cons_of_neg h, List.dropWhile_cons_of_neg h]

theorem drop_succ_length_takeWhile (p : Char → Bool) (s : List Char) :
    s.drop ((s.takeWhile p).length + 1) = (s.dropWhile p).drop 1 := by
  rw [← drop_length_takeWhile p s, List.drop_drop, Nat.add_comm]

theorem deref_eq_nul_iff {p : List Char} (h : '\x00' ∉ p) : deref p = '\x00' ↔ p = [] := by
  cases p with
  | nil => simp [deref]
  | cons x xs =>
    have hx : x ≠ '\x00' := fun e => h (by simp [e])
    simp [deref, hx]

theorem nul_free_dropWhile {s : List Char} (p : Char → Bool) (h : '\x00' ∉ s) :
    '\x00' ∉ s.dropWhile p :=
  fun hm => h ((List.dropWhile_suffix p).subset hm)

theorem nul_free_takeWhile {s : List Char} (p : Char → Bool) (h : '\x00' ∉ s) :
    '\x00' ∉ s.takeWhile p :=
  fun hm => h ((List.takeWhile_prefix p).subset hm)

theorem nul_free_drop {s : List Char} (n : Nat) (h : '\x00' ∉ s) : '\x00' ∉ s.drop n :=
  fun hm => h (List.mem_of_mem_drop hm)

theorem nul_free_after_space {s : List Char} (h : '\x00' ∉ s) : '\x00' ∉ after_space s :=
  nul_free_drop 1 (nul_free_dropWhile _ h)

theorem length_takeWhile_lt_of_mem {s : List Char} {c : Char} (hm : c ∈ s) :
    (s.takeWhile (· ≠ c)).length < s.length := by
  induction s with
  | nil => simp at hm
  | cons x xs ih =>
    by_cases hxc : x = c
    · simp [hxc]
    · have hm2 : c ∈ xs := by
        rcases List.mem_cons.1 hm with h | h
        · exact absurd h.symm hxc
        · exact h
      rw [List.takeWhile_cons_of_pos (by simpa using hxc)]
      simpa using ih hm2

theorem length_eq_of_mem_space {s : List Char} (hm : ' ' ∈ s) :
    s.length = (designator s).length + 1 + (after_space s).length := by
  unfold designator after_space
  induction s with
  | nil => simp at hm
  | cons x xs ih =>
    by_cases hxc : x = ' '
    · simp [hxc]
      omega
    · have hm2 : ' ' ∈ xs := by
        rcases List.mem_cons.1 hm with h | h
        · exact absurd h.symm hxc
        · exact h
      rw [List.takeWhile_cons_of_pos (by simpa using hxc),
        List.dropWhile_cons_of_pos (by simpa using hxc)]
      simp only [List.length_cons, ih hm2]
      omega

theorem drop_designator (line : List Char) :
    line.drop ((designator line).length + 1) = after_space line :=
  drop_succ_length_takeWhile _ _

theorem take_designator (line : List Char) :
    line.take (designator line).length = designator line :=
  take_length_takeWhile _ _

theorem drop_value_token (line : List Char) :
    (after_space line).drop ((value_token line).length + 1) = unit_text line :=
  drop_succ_length_takeWhile _ _

theorem take_value_token (line : List Char) :
    (after_space line).take (value_token line).length = value_token line :=
  take_length_takeWhile _ _

/-- The parser on a NUL-free line, in the vocabulary of the specification. -/
theorem create_sensing_data_line (env : ParseEnv) (line : List Char)
    (h0 : '\x00' ∉ line) :
    create_sensing_data env line line.length =
      if 256 ≤ line.length then none
      else if ' ' ∉ line then none
      else if after_space line = [] ∨ designator line = [] then none
      else if ' ' ∉ after_space line then none
      else if unit_text line = [] ∨ value_token line = [] then none
      else if 'L' ∈ value_token line then none
      else build_sensing_data env (designator line)
        (double_to_float (strtod (value_token line)))
        (unit_text line) (unit_text line).length := by
  unfold create_sensing_data
  have hcopy : strncpy line (line.length + 1) = line := by
    have := strncpy_strlen line
    rwa [strlen_of_nul_free h0, cstr_of_nul_free h0] at this
  simp only [PV_DATA_MAX_LENGTH, COLUMN_DELIMITER_CHR, ERROR_CHR, ge_iff_le, hcopy]
  by_cases hlen : 256 ≤ line.length
  · simp [hlen]
  rw [if_neg hlen, if_neg hlen]
  by_cases hsp : ' ' ∈ line
  swap
  · rw [(strchr_none_iff h0 (by decide)).2 hsp]
    simp [hsp]
  rw [strchr_of_mem h0 hsp, if_neg (not_not.2 hsp)]
  have hrest0 : '\x00' ∉ after_space line := nul_free_after_space h0
  have hdlt : (designator line).length < line.length := length_takeWhile_lt_of_mem hsp
  have hD : List.takeWhile (fun x => decide (x ≠ ' ')) line = designator line := rfl
  simp only [hD, drop_designator, take_designator]
  by_cases h1 : after_space line = [] ∨ designator line = []
  · rw [if_pos h1, if_pos]
    rcases h1 with h | h
    · exact Or.inl ((deref_eq_nul_iff hrest0).2 h)
    · exact Or.inr (Or.inl (by simp [h]))
  rw [if_neg h1, if_neg]
  swap
  · rintro (h | h | h)
    · exact h1 (Or.inl ((deref_eq_nul_iff hrest0).1 h))
    · exact h1 (Or.inr (List.length_eq_zero.1 h))
    · omega
  by_cases hsp2 : ' ' ∈ after_space line
  swap
  · rw [(strchr_none_iff hrest0 (by decide)).2 hsp2]
    simp [hsp2]
  rw [strchr_of_mem hrest0 hsp2, if_neg (not_not.2 hsp2)]
  have hu0 : '\x00' ∉ unit_text line := nul_free_after_space hrest0
  have hv0 : '\x00' ∉ value_token line := nul_free_takeWhile _ hrest0
  have hvlt : (value_token line).length < (after_space line).length :=
    length_takeWhile_lt_of_mem hsp2
  have hl1 := length_eq_of_mem_space hsp
  have hV : List.takeWhile (fun x => decide (x ≠ ' ')) (after_space line) =
      value_token line := rfl
  simp only [hV, drop_value_token, take_value_token]
  rw [strlen_of_nul_free hu0]
  by_cases h2 : unit_text line = [] ∨ value_token line = []
  · rw [if_pos h2, if_pos]
    rcases h2 with h | h
    · exact Or.inl ((deref_eq_nul_iff hu0).2 h)
    · exact Or.inr (Or.inl (by simp [h]))
  rw [if_neg h2, if_neg]
  swap
  · rintro (h | h | h)
    · exact h2 (Or.inl ((deref_eq_nul_iff hu0).1 h))
    · exact h2 (Or.inr (List.length_eq_zero.1 h))
    · omega
  by_cases hL : 'L' ∈ value_token line
  · rw [if_pos hL, strchr_of_mem hv0 hL]
  · rw [if_neg hL, (strchr_none_iff hv0 (by decide)).2 hL]
    have hune : (unit_text line).length ≠ 0 := fun h => h2 (Or.inl (List.length_eq_zero.1 h))
    simp [hune]

theorem create_sensing_data_cstr (env : ParseEnv) (record : List Char) :
    create_sensing_data env record (strlen record) =
      create_sensing_data env (cstr record) (cstr record).length := by
  have h1 : strncpy record (strlen record + 1) = cstr record := strncpy_strlen record
  have h2 : strncpy (cstr record) ((cstr record).length + 1) = cstr record := by
    have := strncpy_strlen (cstr record)
    rwa [strlen_of_nul_free (cstr_nul_free record),
      cstr_of_nul_free (cstr_nul_free record)] at this
  unfold create_sensing_data
  rw [h1, h2, strlen_eq_cstr_length]

theorem build_sensing_data_ok (env : ParseEnv) (h : env.Ok) (da : List Char)
    (v : sse_float) (unit : List Char) (hda : '\x00' ∉ da) :
    ∃ tv, env.gettimeofday = some tv ∧
      build_sensing_data env da v unit unit.length =
        some (reading (timestamp_of tv) da v unit) := by
  obtain ⟨hc, h1, h2, h3, h4, h5⟩ := h
  obtain ⟨tv, htv⟩ := Option.isSome_iff_exists.1 hc
  refine ⟨tv, htv, ?_⟩
  obtain ⟨sec, usec⟩ := tv
  simp [build_sensing_data, htv, h1, h2, h3, h4, h5, moat_object_add_value, moat_object_new,
    reading, timestamp_of, strlen_of_nul_free hda]

theorem build_sensing_data_isSome (env : ParseEnv) (h : env.Ok) (da : List Char)
    (v : sse_float) (unit : List Char) (n : Nat) :
    build_sensing_data env da v unit n ≠ none := by
  obtain ⟨hc, h1, h2, h3, h4, h5⟩ := h
  obtain ⟨tv, htv⟩ := Option.isSome_iff_exists.1 hc
  obtain ⟨sec, usec⟩ := tv
  simp [build_sensing_data, htv, h1, h2, h3, h4, h5, moat_object_add_value, moat_object_new]

/-! ## The sampling tick: failure paths -/

theorem evict_oldest_sublist {ok : Bool} {coll c1 : Collection} {ev : List Event}
    (h : evict_oldest ok coll = some (c1, ev)) : c1.Sublist coll ∧ inserted ev = [] ∧
      flush_attempts ev = 0 := by
  unfold evict_oldest at h
  simp only [moat_object_get_length, moat_object_create_iterator,
    moat_object_iterator_get_next_key, moat_object_remove_value] at h
  split at h
  · split at h
    · exact absurd h (by simp)
    · split at h
      · simp only [Option.some.injEq, Prod.mk.injEq] at h
        obtain ⟨h1, h2⟩ := h
        subst h1; subst h2
        exact ⟨List.filter_sublist _, rfl, rfl⟩
      · simp only [Option.some.injEq, Prod.mk.injEq] at h
        obtain ⟨h1, h2⟩ := h
        subst h1; subst h2
        exact ⟨List.Sublist.refl _, rfl, rfl⟩
  · simp only [Option.some.injEq, Prod.mk.injEq] at h
    obtain ⟨h1, h2⟩ := h
    subst h1; subst h2
    exact ⟨List.Sublist.refl _, rfl, rfl⟩

/-- A tick whose record is unreadable or rejected inserts nothing and attempts no flush;
the collection keeps only entries it already had. -/
theorem sensing_rejected (E : Int) (app : PvDemoApp) (env : SensingEnv)
    (h : sensed env = none) :
    inserted (pvdemoapp_sensing_interval_proc E app env).2 = [] ∧
      flush_attempts (pvdemoapp_sensing_interval_proc E app env).2 = 0 ∧
      (entries (pvdemoapp_sensing_interval_proc E app env).1).Sublist (entries app) := by
  unfold pvdemoapp_sensing_interval_proc
  cases hc : app.DataCollection with
  | none => simp [inserted, flush_attempts, entries]
  | some coll =>
    simp only
    cases he : evict_oldest env.iterator_ok coll with
    | none => simp [inserted, flush_attempts, entries]
    | some r =>
      obtain ⟨c1, ev⟩ := r
      obtain ⟨hs, hi, hf⟩ := evict_oldest_sublist he
      unfold sensed at h
      cases hr : read_record env.data_file with
      | none => simpa [entries, hc, hi, hf] using hs
      | some record =>
        rw [hr] at h
        simp only at h
        simp only [h]
        simpa [entries, hc, hi, hf] using hs

/-! ## Claims about the record parser -/

theorem create_sensing_data_none_iff (env : ParseEnv) (henv : env.Ok) (record : List Char) :
    create_sensing_data env record (strlen record) = none ↔
      (256 ≤ (cstr record).length ∨ ' ' ∉ cstr record ∨ designator (cstr record) = [] ∨
        after_space (cstr record) = [] ∨ ' ' ∉ after_space (cstr record) ∨
        value_token (cstr record) = [] ∨ unit_text (cstr record) = [] ∨
        'L' ∈ value_token (cstr record)) := by
  rw [create_sensing_data_cstr, create_sensing_data_line env _ (cstr_nul_free record)]
  have hb := build_sensing_data_isSome env henv (designator (cstr record))
    (double_to_float (strtod (value_token (cstr record)))) (unit_text (cstr record))
    (unit_text (cstr record)).length
  by_cases h1 : 256 ≤ (cstr record).length
  · simp [h1]
  by_cases h2 : ' ' ∈ cstr record
  swap
  · simp [h1, h2]
  by_cases h3 : designator (cstr record) = []
  · simp [h1, h2, h3]
  by_cases h4 : after_space (cstr record) = []
  · simp [h1, h2, h3, h4]
  by_cases h5 : ' ' ∈ after_space (cstr record)
  swap
  · simp [h1, h2, h3, h4, h5]
  by_cases h6 : value_token (cstr record) = []
  · simp [h1, h2, h3, h4, h5, h6]
  by_cases h7 : unit_text (cstr record) = []
  · simp [h1, h2, h3, h4, h5, h6, h7]
  by_cases h8 : 'L' ∈ value_token (cstr record)
  · simp [h1, h2, h3, h4, h5, h6, h7, h8]
  · simp [h1, h2, h3, h4, h5, h6, h7, h8, hb]

/-- C4: with the clock read and the allocations succeeding, `create_sensing_data` returns
no object exactly when the line has 256 characters or more, has no space, has an empty
designator, has nothing after the first space, has no second space, has an empty value
token, has an empty unit, or has `L` in the value token. The records `ch1 V` and
`ch1 12L V` are rejected, and a sampling tick reading either of them inserts nothing. -/
theorem create_sensing_data_rejects_exactly (env : ParseEnv) (henv : env.Ok)
    (record : List Char) :
    (create_sensing_data env record (strlen record) = none ↔
      (256 ≤ (cstr record).length ∨ ' ' ∉ cstr record ∨ designator (cstr record) = [] ∨
        after_space (cstr record) = [] ∨ ' ' ∉ after_space (cstr record) ∨
        value_token (cstr record) = [] ∨ unit_text (cstr record) = [] ∨
        'L' ∈ value_token (cstr record))) ∧
    create_sensing_data env "ch1 V".toList (strlen "ch1 V".toList) = none ∧
    create_sensing_data env "ch1 12L V".toList (strlen "ch1 12L V".toList) = none ∧
    (∀ (E : Int) (app : PvDemoApp) (senv : SensingEnv),
      inserted (pvdemoapp_sensing_interval_proc E app
        { senv with data_file := FileAccess.content "ch1 V".toList, parse := env }).2 = [] ∧
      (entries (pvdemoapp_sensing_interval_proc E app
        { senv with data_file := FileAccess.content "ch1 V".toList, parse := env }).1).Sublist
        (entries app)) ∧
    (∀ (E : Int) (app : PvDemoApp) (senv : SensingEnv),
      inserted (pvdemoapp_sensing_interval_proc E app
        { senv with data_file := FileAccess.content "ch1 12L V".toList, parse := env }).2
          = [] ∧
      (entries (pvdemoapp_sensing_interval_proc E app
        { senv with data_file := FileAccess.content "ch1 12L V".toList,
                    parse := env }).1).Sublist (entries app)) := by
  have hA : create_sensing_data env "ch1 V".toList (strlen "ch1 V".toList) = none :=
    (create_sensing_data_none_iff env henv _).2
      (Or.inr (Or.inr (Or.inr (Or.inr (Or.inl (by decide))))))
  have hB : create_sensing_data env "ch1 12L V".toList (strlen "ch1 12L V".toList) = none :=
    (create_sensing_data_none_iff env henv _).2
      (Or.inr (Or.inr (Or.inr (Or.inr (Or.inr (Or.inr (Or.inr (by decide))))))))
  refine ⟨create_sensing_data_none_iff env henv record, hA, hB, ?_, ?_⟩
  · intro E app senv
    have h := sensing_rejected E app
      { senv with data_file := FileAccess.content "ch1 V".toList, parse := env } hA
    exact ⟨h.1, h.2.2⟩
  · intro E app senv
    have h := sensing_rejected E app
      { senv with data_file := FileAccess.content "ch1 12L V".toList, parse := env } hB
    exact ⟨h.1, h.2.2⟩

/-! ## Number conversion -/

theorem isspace_of_isdigit {c : Char} (h : isdigit c = true) : isspace c = false := by
  by_contra hs
  simp only [isspace, Bool.not_eq_false, Bool.or_eq_true, decide_eq_true_eq] at hs
  rcases hs with ((((hs | hs) | hs) | hs) | hs) | hs <;> subst hs <;> exact absurd h (by decide)

theorem decimal_nil : decimal [] = 0 := by
  simp [decimal]

theorem decimal_cons (c : Char) (cs : List Char) :
    decimal (c :: cs) = digitVal c * 10 ^ cs.length + decimal cs := by
  simp only [decimal, List.map_cons, List.reverse_cons, Nat.ofDigits_append,
    Nat.ofDigits_singleton, List.length_reverse, List.length_map]
  ring

theorem accDigits_nil (acc : Nat) : accDigits acc [] = acc := rfl

theorem accDigits_cons (acc : Nat) (c : Char) (cs : List Char) :
    accDigits acc (c :: cs) = accDigits (acc * 10 + digitVal c) cs := rfl

theorem accDigits_eq (acc : Nat) (ds : List Char) :
    accDigits acc ds = acc * 10 ^ ds.length + decimal ds := by
  induction ds generalizing acc with
  | nil =>
    rw [accDigits_nil, decimal_nil, List.length_nil, Nat.pow_zero, Nat.mul_one, Nat.add_zero]
  | cons c cs ih =>
    rw [accDigits_cons, ih, decimal_cons, List.length_cons, Nat.pow_succ]
    ring

theorem accDigits_zero (ds : List Char) : accDigits 0 ds = decimal ds := by
  simp [accDigits_eq]

theorem takeWhile_append_stop (p : Char → Bool) (a b : List Char)
    (ha : ∀ c ∈ a, p c = true) (hb : ∀ c, b.head? = some c → p c = false) :
    (a ++ b).takeWhile p = a ∧ (a ++ b).dropWhile p = b := by
  induction a with
  | nil =>
    cases b with
    | nil => simp
    | cons x xs =>
      have hx : p x = false := hb x rfl
      simp [List.takeWhile_cons, List.dropWhile_cons, hx]
  | cons c cs ih =>
    have hc : p c = true := ha c (by simp)
    have := ih (fun x hx => ha x (by simp [hx]))
    simp [List.takeWhile_cons, List.dropWhile_cons, hc, this.1, this.2]

theorem takeSign_digit (a : Char) (rest : List Char) (ha : isdigit a = true) :
    takeSign (a :: rest) = (false, a :: rest) := by
  have hm : a ≠ '-' := fun e => by subst e; exact absurd ha (by decide)
  have hp : a ≠ '+' := fun e => by subst e; exact absurd ha (by decide)
  simp [takeSign, deref, hm, hp]

set_option maxRecDepth 100000 in
theorem strtod_twelve_point_five :
    double_to_float (strtod "12.5".toList) = ieee_value.finite false (25 / 2) := by
  decide!

theorem split_at_space (d r : List Char) (hd : ' ' ∉ d) :
    designator (d ++ ' ' :: r) = d ∧ after_space (d ++ ' ' :: r) = r := by
  have h := takeWhile_append_stop (· ≠ ' ') d (' ' :: r)
    (fun c hc => by
      have : c ≠ ' ' := fun e => hd (e ▸ hc)
      simpa using this)
    (fun c hc => by
      simp only [List.head?_cons, Option.some.injEq] at hc
      subst hc; simp)
  unfold designator after_space
  rw [h.1, h.2]
  simp

theorem create_sensing_data_three_fields (env : ParseEnv) (henv : env.Ok)
    (d v u : List Char) (hd : d ≠ []) (hds : ' ' ∉ d) (hv : v ≠ []) (hvs : ' ' ∉ v)
    (hvL : 'L' ∉ v) (hu : u ≠ []) (h0 : '\x00' ∉ d ++ v ++ u)
    (hlen : (d ++ ' ' :: (v ++ ' ' :: u)).length < 256) :
    ∃ tv, env.gettimeofday = some tv ∧
      create_sensing_data env (d ++ ' ' :: (v ++ ' ' :: u))
          (strlen (d ++ ' ' :: (v ++ ' ' :: u))) =
        some (reading (timestamp_of tv) d (double_to_float (strtod v)) u) := by
  have hnul : '\x00' ∉ d ++ ' ' :: (v ++ ' ' :: u) := by
    simp only [List.mem_append, List.mem_cons, not_or] at h0 ⊢
    refine ⟨h0.1.1, by decide, h0.1.2, by decide, h0.2⟩
  have hd0 : '\x00' ∉ d := fun h => h0 (by simp [h])
  obtain ⟨s1, s2⟩ := split_at_space d (v ++ ' ' :: u) hds
  have s3 : value_token (d ++ ' ' :: (v ++ ' ' :: u)) = v := by
    unfold value_token; rw [s2]; exact (split_at_space v u hvs).1
  have s4 : unit_text (d ++ ' ' :: (v ++ ' ' :: u)) = u := by
    unfold unit_text; rw [s2]; exact (split_at_space v u hvs).2
  obtain ⟨tv, htv, hb⟩ := build_sensing_data_ok env henv d (double_to_float (strtod v)) u
    hd0
  refine ⟨tv, htv, ?_⟩
  rw [strlen_of_nul_free hnul, create_sensing_data_line env _ hnul, s1, s2, s3, s4, hb]
  have hl : ¬ 256 ≤ (d ++ ' ' :: (v ++ ' ' :: u)).length := by omega
  rw [if_neg hl]
  simp [hd, hv, hu, hvL]

/-- C6: on a non-NULL collection `pvdemoapp_upload_data` leaves the collection empty; a
non-empty collection is handed to the transport exactly once, whole and in insertion
order, and the transport's return value is returned; an empty collection causes no
transport call and the return value `SSE_E_OK`, which is 0. -/
theorem pvdemoapp_upload_data_flushes (E : Int) (self : PvDemoApp) (coll : Collection)
    (send_ret : Int) (h : self.DataCollection = some coll) :
    (pvdemoapp_upload_data E self send_ret).2.1.DataCollection = some [] ∧
    (coll ≠ [] →
      sent_batches (pvdemoapp_upload_data E self send_ret).2.2 = [(self.ServiceId, coll)] ∧
      (pvdemoapp_upload_data E self send_ret).1 = send_ret) ∧
    (coll = [] →
      sent_batches (pvdemoapp_upload_data E self send_ret).2.2 = [] ∧
      (pvdemoapp_upload_data E self send_ret).1 = SSE_E_OK ∧
      (pvdemoapp_upload_data E self send_ret).1 = 0) := by
  unfold pvdemoapp_upload_data
  simp only [h, moat_object_get_length, moat_object_remove_all]
  by_cases hl : coll.length = 0
  · have hc : coll = [] := List.length_eq_zero.1 hl
    subst hc
    simp [h, sent_batches, SSE_E_OK]
  · have hc : coll ≠ [] := fun e => hl (by simp [e])
    simp [hl, hc, sent_batches]

theorem upload_data_collection (E : Int) (self : PvDemoApp) (coll : Collection)
    (send_ret : Int) (h : self.DataCollection = some coll) :
    (pvdemoapp_upload_data E self send_ret).2.1 = { self with DataCollection := some [] } := by
  unfold pvdemoapp_upload_data
  simp only [h, moat_object_get_length, moat_object_remove_all]
  by_cases hl : coll.length = 0
  · have hc : coll = [] := List.length_eq_zero.1 hl
    subst hc
    simp only [List.length_nil, if_true]
    cases self
    simp_all
  · simp [hl]

/-! ## The size invariant -/

theorem evict_oldest_length {ok : Bool} {coll c1 : Collection} {ev : List Event}
    (h : evict_oldest ok coll = some (c1, ev)) :
    c1.length ≤ coll.length ∧
      (PV_DATA_MAX_COUNT ≤ coll.length → c1.length < coll.length) := by
  unfold evict_oldest at h
  simp only [moat_object_get_length, moat_object_create_iterator,
    moat_object_iterator_get_next_key, moat_object_remove_value, ge_iff_le] at h
  by_cases hfull : PV_DATA_MAX_COUNT ≤ coll.length
  · rw [if_pos hfull] at h
    cases coll with
    | nil => simp [PV_DATA_MAX_COUNT] at hfull
    | cons e rest =>
      cases ok with
      | false => simp at h
      | true =>
        simp only [Bool.not_true, Bool.false_eq_true, if_false, List.map_cons,
          List.head?_cons, Option.some.injEq, Prod.mk.injEq] at h
        obtain ⟨h1, _⟩ := h
        subst h1
        have hle : (List.filter (fun x => x.1 != e.1) rest).length ≤ rest.length :=
          List.length_filter_le _ _
        have : (List.filter (fun x => x.1 != e.1) (e :: rest)) =
            List.filter (fun x => x.1 != e.1) rest := by
          rw [List.filter_cons_of_neg]; simp
        rw [this]
        simp only [List.length_cons]
        constructor
        · omega
        · intro _; omega
  · rw [if_neg hfull] at h
    simp only [Option.some.injEq, Prod.mk.injEq] at h
    obtain ⟨h1, _⟩ := h
    subst h1
    exact ⟨le_refl _, fun h => absurd h hfull⟩

theorem add_value_length {V : Type} {o o2 : MoatObject V} {key : String} {v : V}
    {ow : Bool} (h : moat_object_add_value o key v ow = some o2) :
    o2.length ≤ o.length + 1 := by
  unfold moat_object_add_value at h
  split at h
  · split at h
    · simp only [Option.some.injEq] at h
      subst h; simp
    · simp at h
  · simp only [Option.some.injEq] at h
    subst h; simp

/-- The size bound is kept by the sampling callback. -/
theorem sensing_keeps_bound (E : Int) (app : PvDemoApp) (env : SensingEnv)
    (h : ∃ coll, app.DataCollection = some coll ∧ coll.length ≤ PV_DATA_MAX_COUNT) :
    ∃ coll, (pvdemoapp_sensing_interval_proc E app env).1.DataCollection = some coll ∧
      coll.length ≤ PV_DATA_MAX_COUNT := by
  obtain ⟨coll, hc, hlen⟩ := h
  unfold pvdemoapp_sensing_interval_proc
  simp only [hc]
  cases he : evict_oldest env.iterator_ok coll with
  | none => exact ⟨coll, hc, hlen⟩
  | some r =>
    obtain ⟨c1, ev⟩ := r
    obtain ⟨hle, hlt⟩ := evict_oldest_length he
    have hc1 : c1.length ≤ PV_DATA_MAX_COUNT := le_trans hle hlen
    simp only
    cases hr : read_record env.data_file with
    | none => exact ⟨c1, rfl, hc1⟩
    | some record =>
      simp only
      cases hp : create_sensing_data env.parse record (strlen record) with
      | none => exact ⟨c1, rfl, hc1⟩
      | some sd =>
        simp only
        cases hadd : env.add_ok with
        | false => exact ⟨c1, rfl, hc1⟩
        | true =>
          simp only [Bool.not_true, Bool.false_eq_true, if_false]
          cases hm : moat_object_add_value c1 env.uuid_ascii sd true with
          | none => exact ⟨c1, rfl, hc1⟩
          | some c2 =>
            simp only
            have hc2 : c2.length ≤ PV_DATA_MAX_COUNT := by
              have h1 := add_value_length hm
              by_cases hfull : PV_DATA_MAX_COUNT ≤ coll.length
              · have := hlt hfull; omega
              · have : coll.length < PV_DATA_MAX_COUNT := Nat.lt_of_not_le hfull
                omega
            cases hu : ev_is_active app.UploadTimer with
            | true => exact ⟨c2, by simp [hu], hc2⟩
            | false =>
              refine ⟨[], ?_, Nat.zero_le _⟩
              simp only [hu, Bool.not_false, if_true]
              rw [upload_data_collection E _ c2 _ rfl]

theorem fire_sensing (E : Int) (app : PvDemoApp) (env : SensingEnv) :
    fire E app (Tick.sensing env) =
      if ev_is_active app.CollectionTimer then pvdemoapp_sensing_interval_proc E app env
      else (app, []) := rfl

theorem fire_upload (E : Int) (app : PvDemoApp) (send_ret : Int) :
    fire E app (Tick.upload send_ret) =
      if ev_is_active app.UploadTimer then pvdemoapp_upload_interval_proc E app send_ret
      else (app, []) := rfl

theorem fire_keeps_bound (E : Int) (app : PvDemoApp) (t : Tick)
    (h : ∃ coll, app.DataCollection = some coll ∧ coll.length ≤ PV_DATA_MAX_COUNT) :
    ∃ coll, (fire E app t).1.DataCollection = some coll ∧
      coll.length ≤ PV_DATA_MAX_COUNT := by
  cases t with
  | sensing env =>
    rw [fire_sensing]
    split
    · exact sensing_keeps_bound E app env h
    · exact h
  | upload send_ret =>
    rw [fire_upload]
    split
    · obtain ⟨coll, hc, _⟩ := h
      refine ⟨[], ?_, Nat.zero_le _⟩
      unfold pvdemoapp_upload_interval_proc
      simp only
      rw [upload_data_collection E app coll send_ret hc]
    · exact h

theorem run_keeps_bound (E : Int) (ticks : List Tick) (app : PvDemoApp)
    (h : ∃ coll, app.DataCollection = some coll ∧ coll.length ≤ PV_DATA_MAX_COUNT) :
    ∃ coll, (run E app ticks).DataCollection = some coll ∧
      coll.length ≤ PV_DATA_MAX_COUNT := by
  induction ticks generalizing app with
  | nil => exact h
  | cons t ts ih => exact ih _ (fire_keeps_bound E app t h)

/-- After a successful start the state holds an empty collection, the identifier, and
the watchers set up from the clamped configuration. -/
theorem pvdemoapp_start_ok (self : PvDemoApp) (env : StartEnv) (henv : env.Ok) :
    (pvdemoapp_start self env).1 = SSE_E_OK ∧
    (pvdemoapp_start self env).2.DataCollection = some [] ∧
    (pvdemoapp_start self env).2.CollectionTimer =
      { active := true, cb := some Callback.pvdemoapp_sensing_interval_proc, offset := 0,
        interval := (clamped_config env.config_file).1 } ∧
    (pvdemoapp_start self env).2.UploadTimer =
      (if (clamped_config env.config_file).1 ≠ (clamped_config env.config_file).2 then
        { active := true, cb := some Callback.pvdemoapp_upload_interval_proc, offset := 0,
          interval := (clamped_config env.config_file).2 }
       else self.UploadTimer) := by
  obtain ⟨h1, h2, h3⟩ := henv
  unfold pvdemoapp_start
  simp only [create_notification_id, h1, h2, h3, if_true, Bool.not_true, Bool.false_eq_true,
    if_false, ne_eq, not_true_eq_false, moat_object_new, ev_periodic_start, ev_periodic_init]
  by_cases hs : (clamped_config env.config_file).1 = (clamped_config env.config_file).2
  · simp [hs]
  · simp [hs]

/-- C3: after a successful start and any finite sequence of sampling ticks (whatever the
outcome of their read and parse) and upload ticks, the collection holds at most 100
entries. -/
theorem collection_size_at_most_max (E : Int) (app0 : PvDemoApp) (env : StartEnv)
    (henv : env.Ok) (ticks : List Tick) :
    ∃ coll, (run E (pvdemoapp_start app0 env).2 ticks).DataCollection = some coll ∧
      coll.length ≤ 100 :=
  run_keeps_bound E ticks _
    ⟨[], (pvdemoapp_start_ok app0 env henv).2.1, Nat.zero_le _⟩

/-! ## The two triggers -/

theorem upload_data_fields (E : Int) (self : PvDemoApp) (send_ret : Int) :
    (pvdemoapp_upload_data E self send_ret).2.1.CollectionTimer = self.CollectionTimer ∧
    (pvdemoapp_upload_data E self send_ret).2.1.UploadTimer = self.UploadTimer ∧
    (pvdemoapp_upload_data E self send_ret).2.1.ServiceId = self.ServiceId := by
  unfold pvdemoapp_upload_data
  cases self.DataCollection with
  | none => exact ⟨rfl, rfl, rfl⟩
  | some coll =>
    simp only
    split <;> exact ⟨rfl, rfl, rfl⟩

theorem sensing_fields (E : Int) (app : PvDemoApp) (env : SensingEnv) :
    (pvdemoapp_sensing_interval_proc E app env).1.CollectionTimer = app.CollectionTimer ∧
    (pvdemoapp_sensing_interval_proc E app env).1.UploadTimer = app.UploadTimer ∧
    (pvdemoapp_sensing_interval_proc E app env).1.ServiceId = app.ServiceId := by
  unfold pvdemoapp_sensing_interval_proc
  cases app.DataCollection with
  | none => exact ⟨rfl, rfl, rfl⟩
  | some coll =>
    simp only
    cases evict_oldest env.iterator_ok coll with
    | none => exact ⟨rfl, rfl, rfl⟩
    | some r =>
      simp only
      cases read_record env.data_file with
      | none => exact ⟨rfl, rfl, rfl⟩
      | some record =>
        simp only
        cases create_sensing_data env.parse record (strlen record) with
        | none => exact ⟨rfl, rfl, rfl⟩
        | some sd =>
          simp only
          cases env.add_ok with
          | false => exact ⟨rfl, rfl, rfl⟩
          | true =>
            simp only [Bool.not_true, Bool.false_eq_true, if_false]
            cases moat_object_add_value r.1 env.uuid_ascii sd true with
            | none => exact ⟨rfl, rfl, rfl⟩
            | some c2 =>
              simp only
              split
              · exact upload_data_fields E _ _
              · exact ⟨rfl, rfl, rfl⟩

theorem fire_fields (E : Int) (app : PvDemoApp) (t : Tick) :
    (fire E app t).1.CollectionTimer = app.CollectionTimer ∧
    (fire E app t).1.UploadTimer = app.UploadTimer ∧
    (fire E app t).1.ServiceId = app.ServiceId := by
  cases t with
  | sensing env =>
    rw [fire_sensing]
    split
    · exact sensing_fields E app env
    · exact ⟨rfl, rfl, rfl⟩
  | upload send_ret =>
    rw [fire_upload]
    split
    · exact upload_data_fields E app send_ret
    · exact ⟨rfl, rfl, rfl⟩

/-- No tick changes a watcher or the service identifier. -/
theorem run_fields (E : Int) (ticks : List Tick) (app : PvDemoApp) :
    (run E app ticks).CollectionTimer = app.CollectionTimer ∧
    (run E app ticks).UploadTimer = app.UploadTimer ∧
    (run E app ticks).ServiceId = app.ServiceId := by
  induction ticks generalizing app with
  | nil => exact ⟨rfl, rfl, rfl⟩
  | cons t ts ih =>
    obtain ⟨h1, h2, h3⟩ := ih (fire E app t).1
    obtain ⟨g1, g2, g3⟩ := fire_fields E app t
    exact ⟨h1.trans g1, h2.trans g2, h3.trans g3⟩

theorem sent_batches_append (a b : List Event) :
    sent_batches (a ++ b) = sent_batches a ++ sent_batches b := by
  induction a with
  | nil => rfl
  | cons e es ih => cases e <;> simp [sent_batches, ih]

theorem inserted_append (a b : List Event) :
    inserted (a ++ b) = inserted a ++ inserted b := by
  induction a with
  | nil => rfl
  | cons e es ih => cases e <;> simp [inserted, ih]

theorem flush_attempts_append (a b : List Event) :
    flush_attempts (a ++ b) = flush_attempts a + flush_attempts b := by
  simp [flush_attempts]

theorem evict_oldest_events {ok : Bool} {coll c1 : Collection} {ev : List Event}
    (h : evict_oldest ok coll = some (c1, ev)) :
    ev = [] ∨ ∃ key, ev = [Event.remove_value key] := by
  unfold evict_oldest at h
  simp only at h
  split at h
  · split at h
    · exact absurd h (by simp)
    · split at h
      · simp only [Option.some.injEq, Prod.mk.injEq] at h
        exact Or.inr ⟨_, h.2.symm⟩
      · simp only [Option.some.injEq, Prod.mk.injEq] at h
        exact Or.inl h.2.symm
  · simp only [Option.some.injEq, Prod.mk.injEq] at h
    exact Or.inl h.2.symm

/-- With the upload watcher active the sampling callback never enters
`pvdemoapp_upload_data` and never calls the transport. -/
theorem sensing_no_flush (E : Int) (app : PvDemoApp) (env : SensingEnv)
    (hu : ev_is_active app.UploadTimer = true) :
    flush_attempts (pvdemoapp_sensing_interval_proc E app env).2 = 0 ∧
      sent_batches (pvdemoapp_sensing_interval_proc E app env).2 = [] := by
  unfold pvdemoapp_sensing_interval_proc
  cases app.DataCollection with
  | none => exact ⟨rfl, rfl⟩
  | some coll =>
    simp only
    cases he : evict_oldest env.iterator_ok coll with
    | none => exact ⟨rfl, rfl⟩
    | some r =>
      obtain ⟨c1, ev⟩ := r
      have hev : flush_attempts ev = 0 ∧ sent_batches ev = [] := by
        rcases evict_oldest_events he with h | ⟨key, h⟩ <;> subst h <;> exact ⟨rfl, rfl⟩
      simp only
      cases read_record env.data_file with
      | none => exact hev
      | some record =>
        simp only
        cases create_sensing_data env.parse record (strlen record) with
        | none => exact hev
        | some sd =>
          simp only
          cases env.add_ok with
          | false => exact hev
          | true =>
            simp only [Bool.not_true, Bool.false_eq_true, if_false]
            cases moat_object_add_value c1 env.uuid_ascii sd true with
            | none => exact hev
            | some c2 =>
              simp only [hu, Bool.not_true, Bool.false_eq_true, if_false]
              rw [flush_attempts_append, sent_batches_append, hev.1, hev.2]
              exact ⟨rfl, rfl⟩

/-- C8: when the clamped intervals differ, a successful `pvdemoapp_start` leaves both
watchers active, they stay active in every state reached by ticks, and in every such
state a sampling tick neither enters `pvdemoapp_upload_data` nor calls the transport. -/
theorem sampling_tick_never_flushes (E : Int) (app0 : PvDemoApp) (env : StartEnv)
    (henv : env.Ok)
    (hdiff : (clamped_config env.config_file).1 ≠ (clamped_config env.config_file).2)
    (ticks : List Tick) (senv : SensingEnv) :
    ev_is_active (pvdemoapp_start app0 env).2.CollectionTimer = true ∧
    ev_is_active (pvdemoapp_start app0 env).2.UploadTimer = true ∧
    ev_is_active (run E (pvdemoapp_start app0 env).2 ticks).CollectionTimer = true ∧
    ev_is_active (run E (pvdemoapp_start app0 env).2 ticks).UploadTimer = true ∧
    flush_attempts
      (fire E (run E (pvdemoapp_start app0 env).2 ticks) (Tick.sensing senv)).2 = 0 ∧
    sent_batches
      (fire E (run E (pvdemoapp_start app0 env).2 ticks) (Tick.sensing senv)).2 = [] := by
  obtain ⟨_, _, hc, hu⟩ := pvdemoapp_start_ok app0 env henv
  rw [if_pos hdiff] at hu
  obtain ⟨r1, r2, _⟩ := run_fields E ticks (pvdemoapp_start app0 env).2
  have a1 : ev_is_active (pvdemoapp_start app0 env).2.CollectionTimer = true := by
    rw [hc]; rfl
  have a2 : ev_is_active (pvdemoapp_start app0 env).2.UploadTimer = true := by
    rw [hu]; rfl
  have b1 : ev_is_active (run E (pvdemoapp_start app0 env).2 ticks).CollectionTimer = true := by
    rw [r1]; exact a1
  have b2 : ev_is_active (run E (pvdemoapp_start app0 env).2 ticks).UploadTimer = true := by
    rw [r2]; exact a2
  refine ⟨a1, a2, b1, b2, ?_⟩
  rw [fire_sensing, if_pos b1]
  exact sensing_no_flush E _ senv b2

/-! ## A single trigger -/

theorem evict_oldest_nil (ok : Bool) : evict_oldest ok [] = some ([], []) := by
  simp [evict_oldest, moat_object_get_length, PV_DATA_MAX_COUNT]

/-- The sampling callback on an empty collection while the upload watcher is inactive. -/
theorem sensing_single_trigger (E : Int) (app : PvDemoApp) (env : SensingEnv)
    (hc : app.DataCollection = some []) (hu : ev_is_active app.UploadTimer = false) :
    (pvdemoapp_sensing_interval_proc E app env).1.DataCollection = some [] ∧
    (∀ sd, sensed env = some sd → env.add_ok = true →
      (pvdemoapp_sensing_interval_proc E app env).2 =
        [Event.add_object_value env.uuid_ascii sd, Event.upload_data,
         Event.send_notification app.ServiceId [(env.uuid_ascii, sd)], Event.remove_all]) ∧
    ((sensed env = none ∨ env.add_ok = false) →
      (pvdemoapp_sensing_interval_proc E app env).2 = []) := by
  unfold pvdemoapp_sensing_interval_proc sensed
  simp only [hc, evict_oldest_nil]
  cases read_record env.data_file with
  | none => simp
  | some record =>
    simp only
    cases create_sensing_data env.parse record (strlen record) with
    | none => simp
    | some sd =>
      cases env.add_ok with
      | false => simp
      | true =>
        simp [moat_object_add_value, hu, pvdemoapp_upload_data, moat_object_get_length,
          moat_object_remove_all]

theorem fire_single_trigger (E : Int) (app : PvDemoApp) (t : Tick)
    (hc : app.DataCollection = some []) (hu : ev_is_active app.UploadTimer = false) :
    (fire E app t).1.DataCollection = some [] := by
  cases t with
  | sensing env =>
    rw [fire_sensing]
    split
    · exact (sensing_single_trigger E app env hc hu).1
    · exact hc
  | upload send_ret =>
    rw [fire_upload, hu]
    exact hc

theorem run_single_trigger (E : Int) (ticks : List Tick) (app : PvDemoApp)
    (hc : app.DataCollection = some []) (hu : ev_is_active app.UploadTimer = false) :
    (run E app ticks).DataCollection = some [] := by
  induction ticks generalizing app with
  | nil => exact hc
  | cons t ts ih =>
    exact ih _ (fire_single_trigger E app t hc hu) ((fire_fields E app t).2.1 ▸ hu)

theorem pvdemoapp_new_upload_inactive {ok : Bool} {in_moat : Moat} {in_urn : String}
    {app0 : PvDemoApp} (h : pvdemoapp_new ok in_moat in_urn = some app0) :
    ev_is_active app0.UploadTimer = false := by
  unfold pvdemoapp_new at h
  split at h
  · simp only [Option.some.injEq] at h
    subst h; rfl
  · exact absurd h (by simp)

/-- C7, amended: when the clamped intervals are equal, a successful `pvdemoapp_start` on a
fresh context leaves the sampling watcher active and the upload watcher inactive, and in
every state reached by ticks a sampling tick that reads, parses and stores its record
performs exactly one insertion followed by exactly one call of `pvdemoapp_upload_data`
(which sends that one entry), while a tick that fails to read, parse or store performs
no insertion and no flush attempt. -/
theorem single_trigger_insert_then_flush (E : Int) (in_moat : Moat) (in_urn : String)
    (app0 : PvDemoApp) (hnew : pvdemoapp_new true in_moat in_urn = some app0)
    (env : StartEnv) (henv : env.Ok)
    (heq : (clamped_config env.config_file).1 = (clamped_config env.config_file).2)
    (ticks : List Tick) (senv : SensingEnv) :
    ev_is_active (pvdemoapp_start app0 env).2.CollectionTimer = true ∧
    ev_is_active (pvdemoapp_start app0 env).2.UploadTimer = false ∧
    (∀ sd, sensed senv = some sd → senv.add_ok = true →
      (fire E (run E (pvdemoapp_start app0 env).2 ticks) (Tick.sensing senv)).2 =
        [Event.add_object_value senv.uuid_ascii sd, Event.upload_data,
         Event.send_notification (pvdemoapp_start app0 env).2.ServiceId
           [(senv.uuid_ascii, sd)],
         Event.remove_all]) ∧
    ((sensed senv = none ∨ senv.add_ok = false) →
      (fire E (run E (pvdemoapp_start app0 env).2 ticks) (Tick.sensing senv)).2 = []) := by
  obtain ⟨_, hcoll, hc, hu⟩ := pvdemoapp_start_ok app0 env henv
  rw [if_neg (not_not.2 heq)] at hu
  obtain ⟨r1, r2, r3⟩ := run_fields E ticks (pvdemoapp_start app0 env).2
  have a1 : ev_is_active (pvdemoapp_start app0 env).2.CollectionTimer = true := by
    rw [hc]; rfl
  have a2 : ev_is_active (pvdemoapp_start app0 env).2.UploadTimer = false := by
    rw [hu]; exact pvdemoapp_new_upload_inactive hnew
  have b1 : ev_is_active (run E (pvdemoapp_start app0 env).2 ticks).CollectionTimer = true := by
    rw [r1]; exact a1
  have b2 : ev_is_active (run E (pvdemoapp_start app0 env).2 ticks).UploadTimer = false := by
    rw [r2]; exact a2
  have b3 := run_single_trigger E ticks _ hcoll a2
  obtain ⟨_, k1, k2⟩ := sensing_single_trigger E _ senv b3 b2
  rw [fire_sensing, if_pos b1, ← r3]
  exact ⟨a1, a2, k1, k2⟩

/-! ## First-in first-out eviction -/

theorem remove_value_head {V : Type} (k : String) (o : V) (rest : MoatObject V)
    (hk : k ∉ rest.map Prod.fst) :
    moat_object_remove_value ((k, o) :: rest) k = rest := by
  unfold moat_object_remove_value
  rw [List.filter_cons_of_neg (by simp), List.filter_eq_self]
  intro e he
  have : e.1 ≠ k := fun h => hk (h ▸ List.mem_map_of_mem Prod.fst he)
  simpa using this

theorem add_value_fresh {V : Type} (o : MoatObject V) (key : String) (v : V) (ow : Bool)
    (hk : key ∉ o.map Prod.fst) :
    moat_object_add_value o key v ow = some (o ++ [(key, v)]) := by
  unfold moat_object_add_value
  rw [if_neg]
  simp only [List.any_eq_true, beq_iff_eq, not_exists, not_and]
  intro e he h
  exact hk (h ▸ List.mem_map_of_mem Prod.fst he)

theorem evict_oldest_full (k : String) (o : SensingData) (rest : Collection)
    (hk : k ∉ rest.map Prod.fst) (hfull : PV_DATA_MAX_COUNT ≤ ((k, o) :: rest).length) :
    evict_oldest true ((k, o) :: rest) = some (rest, [Event.remove_value k]) := by
  unfold evict_oldest
  simp only [moat_object_get_length, ge_iff_le, hfull, if_true, Bool.not_true,
    Bool.false_eq_true, if_false, moat_object_create_iterator,
    moat_object_iterator_get_next_key, List.map_cons, List.head?_cons]
  rw [remove_value_head k o rest hk]

theorem evict_oldest_not_full (ok : Bool) (coll : Collection)
    (h : coll.length < PV_DATA_MAX_COUNT) : evict_oldest ok coll = some (coll, []) := by
  unfold evict_oldest
  simp only [moat_object_get_length, ge_iff_le]
  rw [if_neg (by omega)]

theorem lastN_of_length_le {α : Type} (n : Nat) (l : List α) (h : l.length ≤ n) :
    lastN n l = l := by
  unfold lastN
  rw [Nat.sub_eq_zero_of_le h, List.drop_zero]

theorem length_lastN {α : Type} (n : Nat) (l : List α) :
    (lastN n l).length = min n l.length := by
  unfold lastN
  rw [List.length_drop]
  omega

theorem lastN_lastN_append {α : Type} (n : Nat) (hn : 0 < n) (l : List α) (x : α) :
    lastN n (lastN n l ++ [x]) = lastN n (l ++ [x]) := by
  by_cases h : l.length ≤ n
  · rw [lastN_of_length_le n l h]
  · have hl : n < l.length := Nat.lt_of_not_le h
    have h1 : (l.drop (l.length - n)).length = n := by rw [List.length_drop]; omega
    unfold lastN
    have e1 : (l.drop (l.length - n) ++ [x]).length - n = 1 := by
      rw [List.length_append, h1, List.length_singleton]; omega
    have e2 : (l ++ [x]).length - n = (l.length - n) + 1 := by
      rw [List.length_append, List.length_singleton]; omega
    rw [e1, e2, List.drop_append_of_le_length (by rw [h1]; omega),
      List.drop_append_of_le_length (by omega), List.drop_drop]

theorem lastN_sublist {α : Type} (n : Nat) (l : List α) : (lastN n l).Sublist l :=
  List.drop_sublist _ _

/-- A sampling tick that reads, parses and stores its record under a fresh key, while the
upload watcher is active, appends the entry and keeps the last 100. -/
theorem sensing_success (E : Int) (app : PvDemoApp) (env : SensingEnv) (coll : Collection)
    (sd : SensingData) (hc : app.DataCollection = some coll)
    (hu : ev_is_active app.UploadTimer = true)
    (hit : PV_DATA_MAX_COUNT ≤ coll.length → env.iterator_ok = true)
    (hadd : env.add_ok = true) (hs : sensed env = some sd)
    (hnd : (coll.map Prod.fst).Nodup) (hfresh : env.uuid_ascii ∉ coll.map Prod.fst)
    (hlen : coll.length ≤ PV_DATA_MAX_COUNT) :
    (pvdemoapp_sensing_interval_proc E app env).1.DataCollection =
      some (lastN PV_DATA_MAX_COUNT (coll ++ [(env.uuid_ascii, sd)])) := by
  unfold pvdemoapp_sensing_interval_proc
  unfold sensed at hs
  simp only [hc]
  by_cases hfull : PV_DATA_MAX_COUNT ≤ coll.length
  · cases coll with
    | nil => simp [PV_DATA_MAX_COUNT] at hfull
    | cons e rest =>
      obtain ⟨k, o⟩ := e
      simp only [List.map_cons, List.nodup_cons] at hnd
      have hfr : env.uuid_ascii ∉ rest.map Prod.fst := fun h => hfresh (by simp [h])
      rw [hit hfull, evict_oldest_full k o rest hnd.1 hfull]
      simp only
      cases hr : read_record env.data_file with
      | none => rw [hr] at hs; exact absurd hs (by simp)
      | some record =>
        rw [hr] at hs
        simp only at hs
        simp only [hs, hadd, Bool.not_true, Bool.false_eq_true, if_false,
          add_value_fresh rest _ sd true hfr, hu]
        congr 1
        unfold lastN
        have : ((k, o) :: rest ++ [(env.uuid_ascii, sd)]).length - PV_DATA_MAX_COUNT = 1 := by
          simp only [List.length_cons, List.length_append, List.length_nil] at hlen hfull ⊢
          omega
        rw [this]
        rfl
  · have hlt : coll.length < PV_DATA_MAX_COUNT := Nat.lt_of_not_le hfull
    rw [evict_oldest_not_full _ coll hlt]
    simp only
    cases hr : read_record env.data_file with
    | none => rw [hr] at hs; exact absurd hs (by simp)
    | some record =>
      rw [hr] at hs
      simp only at hs
      simp only [hs, hadd, Bool.not_true, Bool.false_eq_true, if_false,
        add_value_fresh coll _ sd true hfresh, hu]
      congr 1
      rw [lastN_of_length_le]
      simp only [List.length_append, List.length_singleton]
      omega

theorem run_success (E : Int) (envs : List SensingEnv) :
    ∀ (app : PvDemoApp) (done : Collection),
      app.DataCollection = some (lastN PV_DATA_MAX_COUNT done) →
      ev_is_active app.CollectionTimer = true → ev_is_active app.UploadTimer = true →
      (∀ e ∈ envs, e.add_ok = true ∧ (sensed e).isSome = true) →
      (∀ e ∈ envs.drop (PV_DATA_MAX_COUNT - done.length), e.iterator_ok = true) →
      (done.map Prod.fst ++ envs.map (fun e => e.uuid_ascii)).Nodup →
      (run E app (envs.map Tick.sensing)).DataCollection =
        some (lastN PV_DATA_MAX_COUNT (done ++ envs.filterMap entry_of)) := by
  induction envs with
  | nil =>
    intro app done hc _ _ _ _ _
    simpa [run] using hc
  | cons e es ih =>
    intro app done hc hct hut hok hiter hnd
    obtain ⟨hadd, hsome⟩ := hok e (by simp)
    obtain ⟨sd, hsd⟩ := Option.isSome_iff_exists.1 hsome
    have hentry : entry_of e = some (e.uuid_ascii, sd) := by simp [entry_of, hsd]
    have hnd1 : (done.map Prod.fst).Nodup := (List.nodup_append.1 hnd).1
    have hfresh0 : e.uuid_ascii ∉ done.map Prod.fst := by
      intro h
      exact (List.nodup_append.1 hnd).2.2 h (by simp)
    have hsub : ((lastN PV_DATA_MAX_COUNT done).map Prod.fst).Sublist (done.map Prod.fst) :=
      (lastN_sublist _ _).map _
    have hit : PV_DATA_MAX_COUNT ≤ (lastN PV_DATA_MAX_COUNT done).length →
        e.iterator_ok = true := by
      intro hfull
      rw [length_lastN] at hfull
      have hz : PV_DATA_MAX_COUNT - done.length = 0 := by omega
      rw [hz] at hiter
      exact hiter e (by simp)
    have hstep := sensing_success E app e (lastN PV_DATA_MAX_COUNT done) sd hc hut hit hadd
      hsd (hnd1.sublist hsub) (fun h => hfresh0 (hsub.subset h))
      (by rw [length_lastN]; exact Nat.min_le_left _ _)
    rw [lastN_lastN_append _ (by decide)] at hstep
    obtain ⟨f1, f2, _⟩ := sensing_fields E app e
    have hfire : fire E app (Tick.sensing e) = pvdemoapp_sensing_interval_proc E app e := by
      rw [fire_sensing, if_pos hct]
    have hiter2 : ∀ x ∈ es.drop (PV_DATA_MAX_COUNT - (done ++ [(e.uuid_ascii, sd)]).length),
        x.iterator_ok = true := by
      intro x hx
      rw [List.length_append, List.length_singleton] at hx
      apply hiter x
      by_cases hfull : PV_DATA_MAX_COUNT ≤ done.length
      · have hz : PV_DATA_MAX_COUNT - done.length = 0 := by omega
        rw [hz, List.drop_zero]
        exact List.mem_cons_of_mem _ (List.mem_of_mem_drop hx)
      · have hz : PV_DATA_MAX_COUNT - done.length =
            (PV_DATA_MAX_COUNT - (done.length + 1)) + 1 := by omega
        rw [hz, List.drop_succ_cons]
        exact hx
    have := ih (pvdemoapp_sensing_interval_proc E app e).1 (done ++ [(e.uuid_ascii, sd)])
      hstep (f1 ▸ hct) (f2 ▸ hut) (fun x hx => hok x (by simp [hx])) hiter2
      (by simpa [List.map_append, List.append_assoc] using hnd)
    simp only [List.map_cons, run, hfire, List.filterMap_cons, hentry]
    rw [this, List.append_assoc]
    rfl

theorem filterMap_entry_of_keys (envs : List SensingEnv)
    (hok : ∀ e ∈ envs, (sensed e).isSome = true) :
    (envs.filterMap entry_of).map Prod.fst = envs.map (fun e => e.uuid_ascii) := by
  induction envs with
  | nil => rfl
  | cons e es ih =>
    obtain ⟨sd, hsd⟩ := Option.isSome_iff_exists.1 (hok e (by simp))
    have hentry : entry_of e = some (e.uuid_ascii, sd) := by simp [entry_of, hsd]
    rw [List.filterMap_cons, hentry]
    simp only [List.map_cons]
    rw [ih (fun x hx => hok x (by simp [hx]))]

/-- C1: from an empty collection, with the upload watcher active and no upload tick in
between, more than 100 sampling ticks that each read, parse and store a record under
pairwise distinct keys (from the 101st tick on the iterator for the eviction is obtained)
leave exactly the last 100 inserted entries in the collection, in insertion order; the
inserted entries are one per tick, under the key of the tick. -/
theorem last_hundred_entries_kept (E : Int) (app : PvDemoApp) (envs : List SensingEnv)
    (h0 : app.DataCollection = some [])
    (hC : ev_is_active app.CollectionTimer = true)
    (hU : ev_is_active app.UploadTimer = true)
    (hN : 100 < envs.length)
    (hok : ∀ e ∈ envs, e.add_ok = true ∧ (sensed e).isSome = true)
    (hit : ∀ e ∈ envs.drop 100, e.iterator_ok = true)
    (hkeys : (envs.map (fun e => e.uuid_ascii)).Nodup) :
    (run E app (envs.map Tick.sensing)).DataCollection =
      some ((envs.filterMap entry_of).drop (envs.length - 100)) ∧
    ((envs.filterMap entry_of).drop (envs.length - 100)).length = 100 ∧
    (envs.filterMap entry_of).map Prod.fst = envs.map (fun e => e.uuid_ascii) := by
  have hk := filterMap_entry_of_keys envs (fun e he => (hok e he).2)
  have hl : (envs.filterMap entry_of).length = envs.length := by
    have := congrArg List.length hk
    simpa using this
  have hrun := run_success E envs app [] (by simpa [lastN] using h0) hC hU hok hit
    (by simpa using hkeys)
  refine ⟨?_, ?_, hk⟩
  · rw [hrun]
    simp [lastN, hl, PV_DATA_MAX_COUNT]
  · rw [List.length_drop, hl]
    omega

/-! ## Configuration -/

theorem strchr_cstr (s : List Char) (c : Char) (hc : c ≠ '\x00') :
    strchr s c = strchr (cstr s) c := by
  induction s with
  | nil => rfl
  | cons x xs ih =>
    unfold cstr at ih ⊢
    by_cases hx : x = '\x00'
    · subst hx
      have : ¬ ('\x00' = c) := fun e => hc e.symm
      simp [strchr, this, hc]
    · rw [List.takeWhile_cons_of_pos (by simpa using hx)]
      simp only [strchr, ih]

theorem deref_cstr (s : List Char) : deref (cstr s) = deref s := by
  cases s with
  | nil => rfl
  | cons x xs =>
    unfold cstr
    by_cases hx : x = '\x00'
    · subst hx
      simp [deref]
    · rw [List.takeWhile_cons_of_pos (by simpa using hx)]
      rfl

theorem cstr_drop (s : List Char) (i : Nat) (hi : i ≤ (cstr s).length) :
    cstr (s.drop i) = (cstr s).drop i := by
  induction s generalizing i with
  | nil => simp [cstr]
  | cons x xs ih =>
    cases i with
    | zero => rfl
    | succ j =>
      by_cases hx : x = '\x00'
      · subst hx
        simp [cstr] at hi
      · have hcons : cstr (x :: xs) = x :: cstr xs := by
          unfold cstr
          rw [List.takeWhile_cons_of_pos (by simpa using hx)]
        rw [hcons] at hi ⊢
        simp only [List.length_cons, Nat.add_le_add_iff_right] at hi
        simpa using ih j hi

theorem take_cstr (s : List Char) (i : Nat) (hi : i ≤ (cstr s).length) :
    s.take i = (cstr s).take i := by
  induction s generalizing i with
  | nil => simp [cstr]
  | cons x xs ih =>
    cases i with
    | zero => rfl
    | succ j =>
      by_cases hx : x = '\x00'
      · subst hx
        simp [cstr] at hi
      · have hcons : cstr (x :: xs) = x :: cstr xs := by
          unfold cstr
          rw [List.takeWhile_cons_of_pos (by simpa using hx)]
        rw [hcons] at hi ⊢
        simp only [List.length_cons, Nat.add_le_add_iff_right] at hi
        simp [ih j hi]

theorem isdigit_nul : isdigit '\x00' = false := by decide

theorem isspace_nul : isspace '\x00' = false := by decide

theorem takeWhile_isdigit_cstr (s : List Char) :
    (cstr s).takeWhile isdigit = s.takeWhile isdigit := by
  induction s with
  | nil => rfl
  | cons x xs ih =>
    by_cases hx : x = '\x00'
    · subst hx
      simp [cstr, List.takeWhile_cons, isdigit_nul]
    · have hcons : cstr (x :: xs) = x :: cstr xs := by
        unfold cstr
        rw [List.takeWhile_cons_of_pos (by simpa using hx)]
      rw [hcons, List.takeWhile_cons, List.takeWhile_cons, ih]

theorem dropWhile_isspace_cstr (s : List Char) :
    cstr (s.dropWhile isspace) = (cstr s).dropWhile isspace := by
  induction s with
  | nil => rfl
  | cons x xs ih =>
    by_cases hx : x = '\x00'
    · subst hx
      simp [cstr, List.dropWhile_cons, isspace_nul]
    · have hcons : cstr (x :: xs) = x :: cstr xs := by
        unfold cstr
        rw [List.takeWhile_cons_of_pos (by simpa using hx)]
      rw [hcons, List.dropWhile_cons, List.dropWhile_cons]
      by_cases hs : isspace x = true
      · simp [hs, ih]
      · simp [hs, hcons]

theorem cstr_tail_of_deref_ne {s : List Char} (h : deref s ≠ '\x00') :
    cstr (s.drop 1) = (cstr s).drop 1 := by
  cases s with
  | nil => rfl
  | cons x xs =>
    have hx : x ≠ '\x00' := h
    unfold cstr
    rw [List.takeWhile_cons_of_pos (by simpa using hx)]
    rfl

/-- The conversion only reads the C string. -/
theorem atoi_cstr (s : List Char) : atoi (cstr s) = atoi s := by
  unfold atoi
  simp only [← dropWhile_isspace_cstr]
  generalize s.dropWhile isspace = t
  have hd := deref_cstr t
  unfold takeSign
  rw [hd]
  by_cases h1 : deref t = '-'
  · have hne : deref t ≠ '\x00' := by rw [h1]; decide
    simp only [h1, if_true, ← cstr_tail_of_deref_ne hne, takeWhile_isdigit_cstr]
  · by_cases h2 : deref t = '+'
    · have hne : deref t ≠ '\x00' := by rw [h2]; decide
      have h3 : ¬ ('+' = '-') := by decide
      simp only [h2, h3, if_true, if_false, ← cstr_tail_of_deref_ne hne,
        takeWhile_isdigit_cstr]
    · simp only [h1, h2, if_false, takeWhile_isdigit_cstr]

/-- What `pvdemoapp_get_monitoring_config` yields, in terms of the configuration line. -/
theorem get_monitoring_config_eq (cfg : FileAccess) :
    pvdemoapp_get_monitoring_config cfg =
      match read_record cfg with
      | none => (10, 30)
      | some record =>
        if ' ' ∈ cstr record ∧ after_space (cstr record) ≠ [] then
          (to_uint (atoi (designator (cstr record))),
           to_uint (atoi (after_space (cstr record))))
        else (10, 30) := by
  unfold pvdemoapp_get_monitoring_config
  have h10 : to_uint 10 = 10 := by decide
  have h30 : to_uint 30 = 30 := by decide
  simp only [h10, h30, COLUMN_DELIMITER_CHR]
  cases read_record cfg with
  | none => rfl
  | some record =>
    simp only
    rw [strchr_cstr record ' ' (by decide)]
    by_cases hsp : ' ' ∈ cstr record
    · rw [strchr_of_mem (cstr_nul_free record) hsp]
      have hlt : (designator (cstr record)).length < (cstr record).length :=
        length_takeWhile_lt_of_mem hsp
      have hD : List.takeWhile (fun x => decide (x ≠ ' ')) (cstr record) =
          designator (cstr record) := rfl
      simp only [hD]
      have hdrop : cstr (record.drop ((designator (cstr record)).length + 1)) =
          after_space (cstr record) := by
        rw [cstr_drop record _ (by omega), drop_designator]
      have htake : record.take (designator (cstr record)).length =
          designator (cstr record) := by
        rw [take_cstr record _ (by omega), take_designator]
      have hderef : deref (record.drop ((designator (cstr record)).length + 1)) = '\x00' ↔
          after_space (cstr record) = [] := by
        rw [← deref_cstr, hdrop]
        exact deref_eq_nul_iff (nul_free_after_space (cstr_nul_free record))
      rw [htake, ← atoi_cstr (record.drop _), hdrop]
      by_cases ha : after_space (cstr record) = []
      · rw [if_neg (by simpa using hderef.2 ha), if_neg (by simp [ha])]
      · rw [if_pos (fun h => ha (hderef.1 h)), if_pos ⟨hsp, ha⟩]
    · rw [(strchr_none_iff (cstr_nul_free record) (by decide)).2 hsp]
      simp [hsp]

theorem atoi_digits (ds : List Char) (hne : ds ≠ []) (hd : ∀ c ∈ ds, isdigit c = true) :
    atoi ds = (decimal ds : Int) := by
  cases ds with
  | nil => exact absurd rfl hne
  | cons a t =>
    have ha : isdigit a = true := hd a (by simp)
    have h1 : (a :: t).dropWhile isspace = a :: t := by
      rw [List.dropWhile_cons_of_neg]
      simp [isspace_of_isdigit ha]
    have h2 : (a :: t).takeWhile isdigit = a :: t := by
      rw [List.takeWhile_eq_self_iff]; exact hd
    unfold atoi
    simp only [h1, takeSign_digit a t ha, h2, accDigits_zero, Bool.false_eq_true, if_false]

theorem to_uint_natCast (n : Nat) (h : n < 2 ^ 32) : to_uint (n : Int) = n := by
  unfold to_uint
  have : ((n : Int) % 2 ^ 32) = n := Int.emod_eq_of_lt (by omega) (by exact_mod_cast h)
  rw [this, Int.toNat_ofNat]

/-- The configuration read from the line `ds ++ " " ++ es`, possibly followed by a line
end, when both fields are runs of decimal digits below 2^31. -/
theorem get_monitoring_config_digits (ds es nl : List Char) (hds : ds ≠ []) (hes : es ≠ [])
    (hdd : ∀ c ∈ ds, isdigit c = true) (hed : ∀ c ∈ es, isdigit c = true)
    (hs : decimal ds < 2 ^ 31) (hu : decimal es < 2 ^ 31)
    (hnl : nl = [] ∨ nl.head? = some '\n' ∨ nl.head? = some '\r') :
    pvdemoapp_get_monitoring_config (FileAccess.content (ds ++ ' ' :: (es ++ nl))) =
      (decimal ds, decimal es) := by
  rw [get_monitoring_config_eq]
  have hkeep : ∀ l : List Char, (∀ c ∈ l, isdigit c = true) →
      l.map (fun c => if c = '\n' ∨ c = '\r' then '\x00' else c) = l := by
    intro l hl
    conv_rhs => rw [← List.map_id l]
    apply List.map_congr_left
    intro c hc
    have h := hl c hc
    have h1 : c ≠ '\n' := fun e => by subst e; exact absurd h (by decide)
    have h2 : c ≠ '\r' := fun e => by subst e; exact absurd h (by decide)
    simp [h1, h2]
  have hnul : ∀ l : List Char, (∀ c ∈ l, isdigit c = true) → '\x00' ∉ l := by
    intro l hl hm
    exact absurd (hl _ hm) (by decide)
  have hspace : ∀ l : List Char, (∀ c ∈ l, isdigit c = true) → ' ' ∉ l := by
    intro l hl hm
    exact absurd (hl _ hm) (by decide)
  have hrec : read_record (FileAccess.content (ds ++ ' ' :: (es ++ nl))) =
      some ((ds ++ ' ' :: es) ++
        nl.map (fun c => if c = '\n' ∨ c = '\r' then '\x00' else c)) := by
    simp only [read_record, List.map_append, List.map_cons, hkeep ds hdd, hkeep es hed]
    simp
  have hline : cstr ((ds ++ ' ' :: es) ++
      nl.map (fun c => if c = '\n' ∨ c = '\r' then '\x00' else c)) = ds ++ ' ' :: es := by
    unfold cstr
    refine (takeWhile_append_stop _ _ _ ?_ ?_).1
    · intro c hc
      have : c ≠ '\x00' := by
        intro e
        subst e
        rcases List.mem_append.1 hc with h | h
        · exact hnul ds hdd h
        · rcases List.mem_cons.1 h with h | h
          · exact absurd h (by decide)
          · exact hnul es hed h
      simpa using this
    · intro c hc
      rcases hnl with h | h | h
      · subst h; simp at hc
      · cases nl with
        | nil => simp at h
        | cons x xs =>
          simp only [List.head?_cons, Option.some.injEq] at h
          subst h
          simp only [List.map_cons, List.head?_cons, Option.some.injEq] at hc
          subst hc; simp
      · cases nl with
        | nil => simp at h
        | cons x xs =>
          simp only [List.head?_cons, Option.some.injEq] at h
          subst h
          simp only [List.map_cons, List.head?_cons, Option.some.injEq] at hc
          subst hc; simp
  rw [hrec]
  simp only [hline]
  obtain ⟨s1, s2⟩ := split_at_space ds es (hspace ds hdd)
  rw [s1, s2, if_pos ⟨by simp, hes⟩, atoi_digits ds hds hdd, atoi_digits es hes hed,
    to_uint_natCast _ (by omega), to_uint_natCast _ (by omega)]

/-! ## Facts about the sample inputs -/

theorem digitChar_injective_lt_ten :
    ∀ a < 10, ∀ b < 10, Nat.digitChar a = Nat.digitChar b → a = b := by decide

theorem uuid_of_injective {i j : Nat} (hi : i < 1000) (hj : j < 1000)
    (h : uuid_of i = uuid_of j) : i = j := by
  unfold uuid_of at h
  have h1 : _ = _ := congrArg String.data h
  have h2 := List.append_cancel_left h1
  simp only [List.cons.injEq, and_true] at h2
  obtain ⟨a, b, c⟩ := h2
  have a1 := digitChar_injective_lt_ten _ (Nat.mod_lt _ (by decide)) _
    (Nat.mod_lt _ (by decide)) a
  have b1 := digitChar_injective_lt_ten _ (Nat.mod_lt _ (by decide)) _
    (Nat.mod_lt _ (by decide)) b
  have c1 := digitChar_injective_lt_ten _ (Nat.mod_lt _ (by decide)) _
    (Nat.mod_lt _ (by decide)) c
  omega

theorem uuid_of_nodup (n : Nat) (hn : n ≤ 1000) : ((List.range n).map uuid_of).Nodup := by
  refine List.Nodup.map_on ?_ (List.nodup_range n)
  intro i hi j hj h
  exact uuid_of_injective (by have := List.mem_range.1 hi; omega)
    (by have := List.mem_range.1 hj; omega) h

theorem sensed_sample_env (i : Nat) : sensed (sample_env i) = some (sample_reading i) := by
  have henv : (ParseEnv.succeeding (1700000000 + i, 0)).Ok := by
    simp [ParseEnv.Ok, ParseEnv.succeeding]
  obtain ⟨tv, htv, h⟩ := create_sensing_data_three_fields _ henv "ch1".toList
    "12.5".toList "V".toList (by decide) (by decide) (by decide) (by decide) (by decide)
    (by decide) (by decide) (by decide)
  have htv2 : tv = (1700000000 + i, 0) := by
    simpa [ParseEnv.succeeding] using htv.symm
  subst htv2
  have hval := strtod_twelve_point_five
  rw [hval] at h
  unfold sensed sample_env
  simp only [read_record]
  rw [create_sensing_data_cstr]
  rw [strlen_of_nul_free (by decide)] at h
  exact h

theorem clamped_config_digits (ds es nl : List Char) (hds : ds ≠ []) (hes : es ≠ [])
    (hdd : ∀ c ∈ ds, isdigit c = true) (hed : ∀ c ∈ es, isdigit c = true)
    (hs : decimal ds < 2 ^ 31) (hu : decimal es < 2 ^ 31)
    (hnl : nl = [] ∨ nl.head? = some '\n' ∨ nl.head? = some '\r') :
    clamped_config (FileAccess.content (ds ++ ' ' :: (es ++ nl))) =
      (min (decimal ds) (decimal es), decimal es) := by
  unfold clamped_config
  rw [get_monitoring_config_digits ds es nl hds hes hdd hed hs hu hnl]
  simp only [gt_iff_lt, Prod.mk.injEq, and_true]
  by_cases h : decimal es < decimal ds
  · rw [if_pos h, Nat.min_eq_right (Nat.le_of_lt h)]
  · rw [if_neg h, Nat.min_eq_left (Nat.le_of_not_lt h)]

theorem decimal_five : decimal ['5'] = 5 := by
  rw [decimal_cons, decimal_nil, show digitVal '5' = 5 by decide]
  rfl

theorem decimal_three : decimal ['3'] = 3 := by
  rw [decimal_cons, decimal_nil, show digitVal '3' = 3 by decide]
  rfl

theorem decimal_ten : decimal ['1', '0'] = 10 := by
  rw [decimal_cons, decimal_cons, decimal_nil, show digitVal '1' = 1 by decide,
    show digitVal '0' = 0 by decide]
  rfl

theorem decimal_thirty : decimal ['3', '0'] = 30 := by
  rw [decimal_cons, decimal_cons, decimal_nil, show digitVal '3' = 3 by decide,
    show digitVal '0' = 0 by decide]
  rfl

theorem clamped_config_five_three :
    clamped_config (FileAccess.content "5 3".toList) = (3, 3) := by
  have h := clamped_config_digits ['5'] ['3'] [] (by decide) (by decide) (by decide)
    (by decide) (by rw [decimal_five]; decide) (by rw [decimal_three]; decide) (Or.inl rfl)
  rw [decimal_five, decimal_three] at h
  exact h

theorem clamped_config_ten_ten :
    clamped_config (FileAccess.content "10 10".toList) = (10, 10) := by
  have h := clamped_config_digits ['1', '0'] ['1', '0'] [] (by decide) (by decide)
    (by decide) (by decide) (by rw [decimal_ten]; decide) (by rw [decimal_ten]; decide)
    (Or.inl rfl)
  rw [decimal_ten] at h
  exact h

theorem clamped_config_ten_thirty :
    clamped_config (FileAccess.content "10 30\n".toList) = (10, 30) := by
  have h := clamped_config_digits ['1', '0'] ['3', '0'] ['\n'] (by decide) (by decide)
    (by decide) (by decide) (by rw [decimal_ten]; decide) (by rw [decimal_thirty]; decide)
    (Or.inr (Or.inl rfl))
  rw [decimal_ten, decimal_thirty] at h
  exact h

/-- C10: for a configuration line of two runs of decimal digits `ds` and `es` denoting
`s` and `u` below 2^31 (a line end may follow), a successful `pvdemoapp_start` on a fresh
context uses the sampling interval `min s u` and the upload interval `u`: the sampling
watcher is active with interval `min s u`, the upload watcher is active with interval
`u` when the two differ and inactive (the sampling tick uploads) when they are equal;
so the sampling interval never exceeds the upload interval, and the line `5 3` gives the
sampling interval 3. -/
theorem start_schedule_is_clamped (in_moat : Moat) (in_urn : String) (app0 : PvDemoApp)
    (hnew : pvdemoapp_new true in_moat in_urn = some app0)
    (env : StartEnv) (henv : env.Ok) (ds es nl : List Char)
    (hds : ds ≠ []) (hes : es ≠ [])
    (hdd : ∀ c ∈ ds, isdigit c = true) (hed : ∀ c ∈ es, isdigit c = true)
    (hs : decimal ds < 2 ^ 31) (hu : decimal es < 2 ^ 31)
    (hnl : nl = [] ∨ nl.head? = some '\n' ∨ nl.head? = some '\r')
    (hcfg : env.config_file = FileAccess.content (ds ++ ' ' :: (es ++ nl))) :
    clamped_config env.config_file = (min (decimal ds) (decimal es), decimal es) ∧
    (pvdemoapp_start app0 env).2.CollectionTimer.active = true ∧
    (pvdemoapp_start app0 env).2.CollectionTimer.interval = min (decimal ds) (decimal es) ∧
    (min (decimal ds) (decimal es) ≠ decimal es →
      (pvdemoapp_start app0 env).2.UploadTimer.active = true ∧
      (pvdemoapp_start app0 env).2.UploadTimer.interval = decimal es) ∧
    (min (decimal ds) (decimal es) = decimal es →
      (pvdemoapp_start app0 env).2.UploadTimer.active = false) ∧
    min (decimal ds) (decimal es) ≤ decimal es ∧
    clamped_config (FileAccess.content "5 3".toList) = (3, 3) := by
  have hc := clamped_config_digits ds es nl hds hes hdd hed hs hu hnl
  rw [← hcfg] at hc
  obtain ⟨_, _, ht, hup⟩ := pvdemoapp_start_ok app0 env henv
  rw [hc] at ht hup
  simp only at ht hup
  refine ⟨hc, by rw [ht], by rw [ht], ?_, ?_, Nat.min_le_right _ _,
    clamped_config_five_three⟩
  · intro hne
    rw [hup, if_pos hne]
    exact ⟨rfl, rfl⟩
  · intro heq
    rw [hup, if_neg (not_not.2 heq)]
    exact pvdemoapp_new_upload_inactive hnew

theorem pvdemoapp_new_fresh :
    pvdemoapp_new true fresh_app.Moat fresh_app.Urn = some fresh_app := rfl

theorem start_schedule_is_clamped_witness :
    (decimal ['5'] = 5 ∧ decimal ['3'] = 3 ∧ (start_env "5 3").Ok) ∧
    (pvdemoapp_start fresh_app (start_env "5 3")).2.CollectionTimer.interval =
      min (decimal ['5']) (decimal ['3']) ∧
    (pvdemoapp_start fresh_app (start_env "5 3")).2.UploadTimer.active = false :=
  have h := start_schedule_is_clamped fresh_app.Moat fresh_app.Urn fresh_app
    pvdemoapp_new_fresh (start_env "5 3") (by decide) ['5'] ['3'] [] (by decide) (by decide)
    (by decide) (by decide) (by rw [decimal_five]; decide) (by rw [decimal_three]; decide)
    (Or.inl rfl) rfl
  ⟨⟨decimal_five, decimal_three, by decide⟩, h.2.2.1,
    h.2.2.2.2.1 (by rw [decimal_five, decimal_three]; rfl)⟩

/-! ## Defaults of the configuration -/

/-- C9, amended: `pvdemoapp_get_monitoring_config` yields the defaults 10 and 30 when the
configuration cannot be read, when its line has no space, and when nothing follows the
first space of its line (a missing file, `5`, `5 `); a line with text after its first
space is converted field by field with `atoi`, so that `abc def` yields 0 and 0. -/
theorem config_defaults_without_second_field (cfg : FileAccess) :
    ((read_record cfg = none ∨ ∃ record, read_record cfg = some record ∧
        (' ' ∉ cstr record ∨ after_space (cstr record) = [])) →
      pvdemoapp_get_monitoring_config cfg = (10, 30)) ∧
    (∀ record, read_record cfg = some record → ' ' ∈ cstr record →
      after_space (cstr record) ≠ [] →
      pvdemoapp_get_monitoring_config cfg =
        (to_uint (atoi (designator (cstr record))),
         to_uint (atoi (after_space (cstr record))))) ∧
    pvdemoapp_get_monitoring_config FileAccess.open_error = (10, 30) ∧
    pvdemoapp_get_monitoring_config (FileAccess.content "5".toList) = (10, 30) ∧
    pvdemoapp_get_monitoring_config (FileAccess.content "5 ".toList) = (10, 30) ∧
    pvdemoapp_get_monitoring_config (FileAccess.content "abc def".toList) = (0, 0) := by
  refine ⟨?_, ?_, ?_, ?_, ?_, ?_⟩
  · rintro (h | ⟨record, h, h2⟩)
    · rw [get_monitoring_config_eq, h]
    · rw [get_monitoring_config_eq, h]
      simp only
      rw [if_neg]
      rintro ⟨h3, h4⟩
      rcases h2 with h2 | h2
      · exact h2 h3
      · exact h4 h2
  · intro record h h1 h2
    rw [get_monitoring_config_eq, h]
    simp only
    rw [if_pos ⟨h1, h2⟩]
  · rfl
  · rw [get_monitoring_config_eq]
    simp only [read_record]
    rw [if_neg]
    decide
  · rw [get_monitoring_config_eq]
    simp only [read_record]
    rw [if_neg]
    decide
  · rw [get_monitoring_config_eq]
    simp only [read_record]
    rw [if_pos (by decide)]
    decide

theorem config_defaults_without_second_field_witness :
    (read_record (FileAccess.content "5".toList) = some "5".toList ∧
      ' ' ∉ cstr "5".toList) ∧
    pvdemoapp_get_monitoring_config (FileAccess.content "5".toList) = (10, 30) :=
  ⟨⟨rfl, by decide⟩,
    (config_defaults_without_second_field (FileAccess.content "5".toList)).1
      (Or.inr ⟨"5".toList, rfl, Or.inl (by decide)⟩)⟩

/-- The configuration line `abc def` is not two integers, and the intervals read from it
are 0 and 0, not the defaults. -/
theorem config_abc_def_not_defaults :
    pvdemoapp_get_monitoring_config (FileAccess.content "abc def".toList) = (0, 0) ∧
    pvdemoapp_get_monitoring_config (FileAccess.content "abc def".toList) ≠ (10, 30) := by
  have h : pvdemoapp_get_monitoring_config (FileAccess.content "abc def".toList) = (0, 0) := by
    rw [get_monitoring_config_eq]
    simp only [read_record]
    rw [if_pos (by decide)]
    decide
  exact ⟨h, by rw [h]; decide⟩

/-! ## Instances of the claims -/

theorem last_hundred_entries_kept_witness :
    (100 < ((List.range 101).map sample_env).length ∧
      (((List.range 101).map sample_env).map (fun e => e.uuid_ascii)).Nodup) ∧
    (run 0 scheduled_app (((List.range 101).map sample_env).map Tick.sensing)).DataCollection =
      some ((((List.range 101).map sample_env).filterMap entry_of).drop
        (((List.range 101).map sample_env).length - 100)) :=
  have hN : 100 < ((List.range 101).map sample_env).length := by simp
  have hkeys : (((List.range 101).map sample_env).map (fun e => e.uuid_ascii)).Nodup := by
    rw [List.map_map]
    exact uuid_of_nodup 101 (by decide)
  have hok : ∀ e ∈ (List.range 101).map sample_env,
      e.add_ok = true ∧ (sensed e).isSome = true := by
    intro e he
    obtain ⟨i, _, rfl⟩ := List.mem_map.1 he
    exact ⟨rfl, by rw [sensed_sample_env]; rfl⟩
  have hit : ∀ e ∈ ((List.range 101).map sample_env).drop 100, e.iterator_ok = true := by
    intro e he
    obtain ⟨i, _, rfl⟩ := List.mem_map.1 (List.mem_of_mem_drop he)
    rfl
  ⟨⟨hN, hkeys⟩,
    (last_hundred_entries_kept 0 scheduled_app ((List.range 101).map sample_env) rfl rfl rfl
      hN hok hit hkeys).1⟩

theorem full_collection_cons :
    full_collection = (uuid_of 0, sample_reading 0) :: full_collection.drop 1 := by
  unfold full_collection
  rw [show (100 : Nat) = 99 + 1 from rfl, List.range_succ_eq_map]
  rfl

theorem full_collection_keys : full_collection.map Prod.fst = (List.range 100).map uuid_of := by
  unfold full_collection
  rw [List.map_map]
  rfl

/-- A failed tick on a collection below its capacity changes nothing. -/
theorem sensing_rejected_below_capacity (E : Int) (app : PvDemoApp) (env : SensingEnv)
    (coll : Collection) (hc : app.DataCollection = some coll)
    (hlen : coll.length < PV_DATA_MAX_COUNT) (h : sensed env = none) :
    pvdemoapp_sensing_interval_proc E app env = (app, []) := by
  unfold pvdemoapp_sensing_interval_proc
  unfold sensed at h
  simp only [hc, evict_oldest_not_full _ coll hlen]
  have happ : { app with DataCollection := some coll } = app := by
    cases app
    simp_all
  cases hr : read_record env.data_file with
  | none => simp [happ]
  | some record =>
    rw [hr] at h
    simp only at h
    simp [h, happ]

/-- C2, at the failing input: on a collection holding 100 entries a sampling tick whose
data file cannot be opened removes the oldest entry, so 99 entries remain, and inserts
nothing. -/
theorem failed_read_evicts_from_full_collection (E : Int) :
    full_collection.length = 100 ∧
    read_record unreadable_env.data_file = none ∧
    (pvdemoapp_sensing_interval_proc E full_app unreadable_env).1.DataCollection =
      some (full_collection.drop 1) ∧
    (full_collection.drop 1).length = 99 ∧
    (pvdemoapp_sensing_interval_proc E full_app unreadable_env).1.DataCollection ≠
      full_app.DataCollection ∧
    (pvdemoapp_sensing_interval_proc E full_app unreadable_env).2 =
      [Event.remove_value (uuid_of 0)] := by
  have hlen : full_collection.length = 100 := by simp [full_collection]
  have hnd : (full_collection.map Prod.fst).Nodup := by
    rw [full_collection_keys]; exact uuid_of_nodup 100 (by decide)
  rw [full_collection_cons, List.map_cons, List.nodup_cons] at hnd
  have hev := evict_oldest_full (uuid_of 0) (sample_reading 0) (full_collection.drop 1)
    hnd.1 (by rw [← full_collection_cons, hlen]; decide)
  rw [← full_collection_cons] at hev
  have hrun : pvdemoapp_sensing_interval_proc E full_app unreadable_env =
      ({ full_app with DataCollection := some (full_collection.drop 1) },
        [Event.remove_value (uuid_of 0)]) := by
    unfold pvdemoapp_sensing_interval_proc
    have h1 : full_app.DataCollection = some full_collection := rfl
    have h2 : unreadable_env.iterator_ok = true := rfl
    have h3 : read_record unreadable_env.data_file = none := rfl
    simp only [h1, h2, hev, h3]
  have hl2 : (full_collection.drop 1).length = 99 := by
    rw [List.length_drop, hlen]
  refine ⟨hlen, rfl, by rw [hrun], hl2, ?_, by rw [hrun]⟩
  rw [hrun]
  intro h
  have h1 : full_app.DataCollection = some full_collection := rfl
  rw [h1] at h
  have := congrArg (fun o => (o.getD []).length) h
  simp only [Option.getD_some] at this
  rw [hl2, hlen] at this
  exact absurd this (by decide)

theorem collection_size_at_most_max_witness :
    (start_env "10 30\n").Ok ∧
    ∃ coll, (run 0 (pvdemoapp_start fresh_app (start_env "10 30\n")).2
        [Tick.sensing (sample_env 0), Tick.sensing unreadable_env, Tick.upload 7,
         Tick.sensing (sample_env 1)]).DataCollection = some coll ∧
      coll.length ≤ 100 :=
  ⟨by decide, collection_size_at_most_max 0 fresh_app (start_env "10 30\n") (by decide) _⟩

theorem create_sensing_data_rejects_exactly_witness :
    (ParseEnv.succeeding (1700000000, 0)).Ok ∧
    (create_sensing_data (ParseEnv.succeeding (1700000000, 0)) "ch1 V".toList
        (strlen "ch1 V".toList) = none ↔
      (256 ≤ (cstr "ch1 V".toList).length ∨ ' ' ∉ cstr "ch1 V".toList ∨
        designator (cstr "ch1 V".toList) = [] ∨ after_space (cstr "ch1 V".toList) = [] ∨
        ' ' ∉ after_space (cstr "ch1 V".toList) ∨ value_token (cstr "ch1 V".toList) = [] ∨
        unit_text (cstr "ch1 V".toList) = [] ∨ 'L' ∈ value_token (cstr "ch1 V".toList))) ∧
    create_sensing_data (ParseEnv.succeeding (1700000000, 0)) "ch1 12L V".toList
      (strlen "ch1 12L V".toList) = none :=
  have h := create_sensing_data_rejects_exactly (ParseEnv.succeeding (1700000000, 0))
    (by decide) "ch1 V".toList
  ⟨by decide, h.1, h.2.2.1⟩

theorem pvdemoapp_upload_data_flushes_witness :
    (full_app.DataCollection = some full_collection ∧ full_collection ≠ []) ∧
    (pvdemoapp_upload_data (-1) full_app 42).2.1.DataCollection = some [] ∧
    sent_batches (pvdemoapp_upload_data (-1) full_app 42).2.2 =
      [(full_app.ServiceId, full_collection)] ∧
    (pvdemoapp_upload_data (-1) full_app 42).1 = 42 :=
  have hne : full_collection ≠ [] := by
    rw [full_collection_cons]
    exact List.cons_ne_nil _ _
  have h := pvdemoapp_upload_data_flushes (-1) full_app full_collection 42 rfl
  ⟨⟨rfl, hne⟩, h.1, h.2.1 hne⟩

theorem sampling_tick_never_flushes_witness :
    ((start_env "10 30\n").Ok ∧
      (clamped_config (start_env "10 30\n").config_file).1 ≠
        (clamped_config (start_env "10 30\n").config_file).2) ∧
    flush_attempts
      (fire 0 (run 0 (pvdemoapp_start fresh_app (start_env "10 30\n")).2
        [Tick.sensing (sample_env 0)]) (Tick.sensing (sample_env 1))).2 = 0 :=
  have hd : (clamped_config (start_env "10 30\n").config_file).1 ≠
      (clamped_config (start_env "10 30\n").config_file).2 := by
    rw [show (start_env "10 30\n").config_file = FileAccess.content "10 30\n".toList from rfl,
      clamped_config_ten_thirty]
    decide
  ⟨⟨by decide, hd⟩,
    (sampling_tick_never_flushes 0 fresh_app (start_env "10 30\n") (by decide) hd
      [Tick.sensing (sample_env 0)] (sample_env 1)).2.2.2.2.1⟩

theorem single_trigger_insert_then_flush_witness :
    ((start_env "10 10").Ok ∧
      (clamped_config (start_env "10 10").config_file).1 =
        (clamped_config (start_env "10 10").config_file).2 ∧
      sensed (sample_env 1) = some (sample_reading 1)) ∧
    (fire 0 (run 0 (pvdemoapp_start fresh_app (start_env "10 10")).2
        [Tick.sensing (sample_env 0)]) (Tick.sensing (sample_env 1))).2 =
      [Event.add_object_value (sample_env 1).uuid_ascii (sample_reading 1),
       Event.upload_data,
       Event.send_notification (pvdemoapp_start fresh_app (start_env "10 10")).2.ServiceId
         [((sample_env 1).uuid_ascii, sample_reading 1)],
       Event.remove_all] :=
  have he : (clamped_config (start_env "10 10").config_file).1 =
      (clamped_config (start_env "10 10").config_file).2 := by
    rw [show (start_env "10 10").config_file = FileAccess.content "10 10".toList from rfl,
      clamped_config_ten_ten]
  ⟨⟨by decide, he, sensed_sample_env 1⟩,
    (single_trigger_insert_then_flush 0 fresh_app.Moat fresh_app.Urn fresh_app
      pvdemoapp_new_fresh (start_env "10 10") (by decide) he [Tick.sensing (sample_env 0)]
      (sample_env 1)).2.2.1 (sample_reading 1) (sensed_sample_env 1) rfl⟩

/-- With equal intervals, a sampling tick whose data file cannot be opened makes no
insertion and no flush attempt, where the claim asks for exactly one of each. -/
theorem single_trigger_failed_tick :
    (start_env "10 10").Ok ∧
    (clamped_config (start_env "10 10").config_file).1 =
      (clamped_config (start_env "10 10").config_file).2 ∧
    (inserted (fire 0 (pvdemoapp_start fresh_app (start_env "10 10")).2
      (Tick.sensing unreadable_env)).2).length = 0 ∧
    flush_attempts (fire 0 (pvdemoapp_start fresh_app (start_env "10 10")).2
      (Tick.sensing unreadable_env)).2 = 0 ∧
    ¬ ((inserted (fire 0 (pvdemoapp_start fresh_app (start_env "10 10")).2
        (Tick.sensing unreadable_env)).2).length = 1 ∧
      flush_attempts (fire 0 (pvdemoapp_start fresh_app (start_env "10 10")).2
        (Tick.sensing unreadable_env)).2 = 1) := by
  have he : (clamped_config (start_env "10 10").config_file).1 =
      (clamped_config (start_env "10 10").config_file).2 := by
    rw [show (start_env "10 10").config_file = FileAccess.content "10 10".toList from rfl,
      clamped_config_ten_ten]
  have hact := (pvdemoapp_start_ok fresh_app (start_env "10 10") (by decide)).2.2.1
  have hfire : fire 0 (pvdemoapp_start fresh_app (start_env "10 10")).2
      (Tick.sensing unreadable_env) =
      pvdemoapp_sensing_interval_proc 0 (pvdemoapp_start fresh_app (start_env "10 10")).2
        unreadable_env := by
    rw [fire_sensing, hact]
    rfl
  obtain ⟨h1, h2, _⟩ := sensing_rejected 0 (pvdemoapp_start fresh_app (start_env "10 10")).2
    unreadable_env rfl
  rw [hfire, h1, h2]
  exact ⟨by decide, he, rfl, rfl, by simp⟩

end PvDemo
